import Mathlib

/-!
# Verification of the Teamwerk test-integrity linter and evidence report generator

Shallow embedding of the two engineered components of the repository:

* `test-integrity-linter.js` (Rule Zero enforcement): violation-pattern
  catalog, file discovery, scanner, deduplication and exit codes;
* `scripts/report-generator.js`: AC-definition resolution (config / markdown /
  test-title inference), test-result ingestion, log normalization, and the
  AC traceability-matrix status computation.

The linter's rule matchers are JavaScript regular expressions.  They are
embedded with a small backtracking regex engine (`Regex`, `mrun`) whose
alternation is left-biased and whose quantifiers are greedy or lazy exactly
as in JS; every star/plus in the source patterns ranges over a single
character class, which the AST reflects.  Global matching (`gmatch`) mirrors
`String.match(re, 'g')`: repeated leftmost match, resuming after each match.
-/

namespace Teamwerk

/-! ## Character classes used by the source regexes -/

/-- JS `\s` (the inputs of interest are ASCII; the Unicode space classes are
irrelevant to every property checked here). -/
def jsSpaceChar (c : Char) : Bool :=
  c = ' ' || c = '\t' || c = '\n' || c = '\r' || c = '\x0b' || c = '\x0c'

/-- JS `\w` = `[A-Za-z0-9_]`. -/
def jsWordChar (c : Char) : Bool :=
  ('a' ≤ c && c ≤ 'z') || ('A' ≤ c && c ≤ 'Z') || ('0' ≤ c && c ≤ '9') || c = '_'

/-- JS `[\s\S]` — any character, including newline. -/
def anyChar (_ : Char) : Bool := true

/-- JS `[^)]`. -/
def notRParen (c : Char) : Bool := c ≠ ')'

/-- JS `['"`]` (quote, double quote, backtick). -/
def quoteChar3 (c : Char) : Bool := c = '\'' || c = '"' || c = '\x60'

/-- JS `['"]`. -/
def quoteChar2 (c : Char) : Bool := c = '\'' || c = '"'

/-! ## String helpers

All string manipulation is done on `String.data` character lists, which is
what the JS string primitives (`endsWith`, `split`, `trim`, `slice`, …)
denote on the ASCII inputs at hand. -/

def strEndsWith (s suf : String) : Bool := suf.data.isSuffixOf s.data

def strStartsWith (s pre : String) : Bool := pre.data.isPrefixOf s.data

/-- `'<a>'.split('<sep>')` (on `""` it yields `[""]`). -/
def splitOnCharL (sep : Char) : List Char → List (List Char)
  | [] => [[]]
  | c :: rest =>
    match splitOnCharL sep rest with
    | [] => [[c]]
    | h :: t => if c = sep then [] :: h :: t else (c :: h) :: t

/-- `content.split('\n')`. -/
def strSplitNl (s : String) : List String :=
  (splitOnCharL '\n' s.data).map (fun l => ⟨l⟩)

/-- JS `String#trim` (both ends, `\s`). -/
def trimJs (s : String) : String :=
  ⟨((s.data.dropWhile jsSpaceChar).reverse.dropWhile jsSpaceChar).reverse⟩

/-- `lines.join('\n')`. -/
def joinNl : List String → String
  | [] => ""
  | [x] => x
  | x :: xs => x ++ "\n" ++ joinNl xs

/-! ## Regex AST

Every quantifier in the source patterns applies to a single character class,
which is exactly what the AST offers: `starL`/`starG`/`plusG` quantify a
`Char → Bool` class (lazy star `*?`, greedy star `*`, greedy plus `+`). -/

inductive Regex where
  | eps
  | lit (c : Char)
  | cls (p : Char → Bool)
  | cat (a b : Regex)
  | alt (a b : Regex)
  | opt (a : Regex)
  | starL (p : Char → Bool)
  | starG (p : Char → Bool)
  | plusG (p : Char → Bool)

/-- Literal string as a regex (concatenation of literal characters). -/
def rstr (s : String) : Regex :=
  s.data.foldr (fun c r => .cat (.lit c) r) .eps

/-- Concatenation of a list of regexes. -/
def rcat (rs : List Regex) : Regex :=
  rs.foldr .cat .eps

/-- Left-biased alternation of a nonempty list. -/
def ralt : List Regex → Regex
  | [] => .eps
  | [r] => r
  | r :: rs => .alt r (ralt rs)

/-! ## The matcher

`mrun r s k` runs `r` on `s` in continuation-passing style; `k` receives the
rest of the input.  Alternatives are tried in priority order and the first
overall success wins, which is the JS backtracking semantics.  The result is
`some n` where `n` is whatever the continuation returned (the top-level
continuation returns the length of the remaining input). -/

/-- Lazy star over a character class: try the continuation first, then
consume one class character and repeat. -/
def starLrun (p : Char → Bool) (k : List Char → Option Nat) : List Char → Option Nat
  | [] => k []
  | c :: rest =>
    match k (c :: rest) with
    | some n => some n
    | none => if p c then starLrun p k rest else none

/-- Greedy star over a character class: consume as many class characters as
possible, backtracking towards shorter takes. -/
def starGrun (p : Char → Bool) (k : List Char → Option Nat) : List Char → Option Nat
  | [] => k []
  | c :: rest =>
    if p c then
      match starGrun p k rest with
      | some n => some n
      | none => k (c :: rest)
    else k (c :: rest)

def mrun : Regex → List Char → (List Char → Option Nat) → Option Nat
  | .eps, s, k => k s
  | .lit _, [], _ => none
  | .lit c, a :: s, k => if a = c then k s else none
  | .cls _, [], _ => none
  | .cls p, a :: s, k => if p a then k s else none
  | .cat r1 r2, s, k => mrun r1 s (fun s2 => mrun r2 s2 k)
  | .alt r1 r2, s, k =>
    match mrun r1 s k with
    | some n => some n
    | none => mrun r2 s k
  | .opt r1, s, k =>
    match mrun r1 s k with
    | some n => some n
    | none => k s
  | .starL p, s, k => starLrun p k s
  | .starG p, s, k => starGrun p k s
  | .plusG _, [], _ => none
  | .plusG p, a :: s, k => if p a then starGrun p k s else none

/-- Match `r` at the very start of `s`; returns the length of the matched
span (the first match in JS backtracking priority order). -/
def matchAt (r : Regex) (s : List Char) : Option Nat :=
  match mrun r s (fun rest => some rest.length) with
  | some rest => some (s.length - rest)
  | none => none

/-- `String.match(re, 'g')`: the list of matched substrings, scanning left to
right and resuming after each match (advancing one position after an empty
match, as JS does by bumping `lastIndex`).  Structural recursion on a fuel
bounding the number of scan steps; every step consumes at least one
character, so `s.length + 1` fuel always suffices (`gmatch`). -/
def gmatchGo (r : Regex) : Nat → List Char → List (List Char)
  | 0, _ => []
  | fuel + 1, s =>
    match s with
    | [] =>
      (match matchAt r [] with
       | some _ => [[]]
       | none => [])
    | c :: rest =>
      match matchAt r (c :: rest) with
      | some 0 => [] :: gmatchGo r fuel rest
      | some (n + 1) => ((c :: rest).take (n + 1)) :: gmatchGo r fuel ((c :: rest).drop (n + 1))
      | none => gmatchGo r fuel rest

def gmatch (r : Regex) (s : List Char) : List (List Char) :=
  gmatchGo r (s.length + 1) s

/-- `String.indexOf`: index of the first occurrence of `needle`, if any. -/
def indexOfSub (hay needle : List Char) : Option Nat :=
  if needle.isPrefixOf hay then some 0
  else
    match hay with
    | [] => none
    | _ :: t =>
      match indexOfSub t needle with
      | some i => some (i + 1)
      | none => none

/-- Boolean search: does `r` match starting at some position of `s`? -/
def searchB (r : Regex) (s : List Char) : Bool :=
  (matchAt r s).isSome ||
    match s with
    | [] => false
    | _ :: t => searchB r t

/-! ## Violation rule catalog (`test-integrity-linter.js`)

Shorthands for the recurring regex pieces. -/

def sStar : Regex := .starG jsSpaceChar
def sPlus : Regex := .plusG jsSpaceChar
def wPlus : Regex := .plusG jsWordChar
def lazyAny : Regex := .starL anyChar

/-- `page\.evaluate\s*\(\s*(?:async\s*)?\(\s*\)\s*=>\s*\{` -/
def jsEvalHead : Regex :=
  rcat [rstr "page.evaluate", sStar, .lit '(', sStar, .opt (rcat [rstr "async", sStar]),
        .lit '(', sStar, .lit ')', sStar, rstr "=>", sStar, .lit '\x7b']

/-- `\.\s*style\s*\.\s*\w+\s*=` -/
def fragStyleSet : Regex :=
  rcat [.lit '.', sStar, rstr "style", sStar, .lit '.', sStar, wPlus, sStar, .lit '=']

/-- `\.\s*hidden\s*=` -/
def fragHiddenSet : Regex := rcat [.lit '.', sStar, rstr "hidden", sStar, .lit '=']

/-- `\.\s*(?:innerHTML|outerHTML)\s*=` -/
def fragHtmlSet : Regex :=
  rcat [.lit '.', sStar, .alt (rstr "innerHTML") (rstr "outerHTML"), sStar, .lit '=']

/-- `\.\s*(?:className\s*=|classList\s*\.\s*(?:add|remove|toggle))` -/
def fragClassSet : Regex :=
  rcat [.lit '.', sStar,
        .alt (rcat [rstr "className", sStar, .lit '='])
             (rcat [rstr "classList", sStar, .lit '.', sStar,
                    ralt [rstr "add", rstr "remove", rstr "toggle"]])]

/-- `\.\s*remove\s*\(\s*\)` -/
def fragRemoveCall : Regex :=
  rcat [.lit '.', sStar, rstr "remove", sStar, .lit '(', sStar, .lit ')']

/-- `document\.getElementById\s*\([^)]+\)\s*\.\s*\w+\s*=` -/
def fragGetByIdSet : Regex :=
  rcat [rstr "document.getElementById", sStar, .lit '(', .plusG notRParen, .lit ')',
        sStar, .lit '.', sStar, wPlus, sStar, .lit '=']

/-- `document\.querySelector\s*\([^)]+\)\s*\.\s*\w+\s*=` -/
def fragQuerySelSet : Regex :=
  rcat [rstr "document.querySelector", sStar, .lit '(', .plusG notRParen, .lit ')',
        sStar, .lit '.', sStar, wPlus, sStar, .lit '=']

/-- `\.display\s*=\s*['"`](?:none|block|flex|grid|inline|inherit)` -/
def patDisplayOverride : Regex :=
  rcat [.lit '.', rstr "display", sStar, .lit '=', sStar, .cls quoteChar3,
        ralt [rstr "none", rstr "block", rstr "flex", rstr "grid", rstr "inline", rstr "inherit"]]

/-- `new\s+MutationObserver` -/
def patMutationObserver : Regex := rcat [rstr "new", sPlus, rstr "MutationObserver"]

/-- `page\.addStyleTag\s*\(` -/
def patAddStyleTag : Regex := rcat [rstr "page.addStyleTag", sStar, .lit '(']

/-- `page\.addScriptTag\s*\(` -/
def patAddScriptTag : Regex := rcat [rstr "page.addScriptTag", sStar, .lit '(']

structure ViolationRule where
  pattern : Regex
  id : String
  description : String
  severity : String
  rule : String
  lang : String

def JS_VIOLATION_PATTERNS : List ViolationRule := [
  { pattern := .cat jsEvalHead (.cat lazyAny fragStyleSet),
    id := "DOM_STYLE_MUTATION",
    description := "page.evaluate() modifies element .style property",
    severity := "critical",
    rule := "Rule Zero: Tests must never modify application CSS/styles",
    lang := "js" },
  { pattern := .cat jsEvalHead (.cat lazyAny fragHiddenSet),
    id := "DOM_HIDDEN_MUTATION",
    description := "page.evaluate() modifies element .hidden property",
    severity := "critical",
    rule := "Rule Zero: Tests must never modify application visibility",
    lang := "js" },
  { pattern := .cat jsEvalHead (.cat lazyAny fragHtmlSet),
    id := "DOM_HTML_MUTATION",
    description := "page.evaluate() modifies element innerHTML/outerHTML",
    severity := "critical",
    rule := "Rule Zero: Tests must never modify application DOM content",
    lang := "js" },
  { pattern := .cat jsEvalHead (.cat lazyAny fragClassSet),
    id := "DOM_CLASS_MUTATION",
    description := "page.evaluate() modifies element classes",
    severity := "critical",
    rule := "Rule Zero: Tests must never modify application CSS classes",
    lang := "js" },
  { pattern := .cat jsEvalHead (.cat lazyAny fragRemoveCall),
    id := "DOM_ELEMENT_REMOVAL",
    description := "page.evaluate() removes DOM elements",
    severity := "critical",
    rule := "Rule Zero: Tests must never remove application elements",
    lang := "js" },
  { pattern := patDisplayOverride,
    id := "CSS_DISPLAY_OVERRIDE",
    description := "Test overrides CSS display property",
    severity := "critical",
    rule := "Rule Zero: Tests must never override application CSS display",
    lang := "js" },
  { pattern := patMutationObserver,
    id := "MUTATION_OBSERVER",
    description := "Test creates a MutationObserver to reactively modify the DOM",
    severity := "critical",
    rule := "Rule Zero: Tests must never use MutationObserver to alter app behavior",
    lang := "js" },
  { pattern := patAddStyleTag,
    id := "INJECTED_STYLE",
    description := "Test injects a <style> tag into the application",
    severity := "critical",
    rule := "Rule Zero: Tests must never inject CSS into the application",
    lang := "js" },
  { pattern := patAddScriptTag,
    id := "INJECTED_SCRIPT",
    description := "Test injects a <script> tag into the application",
    severity := "critical",
    rule := "Rule Zero: Tests must never inject JavaScript into the application",
    lang := "js" },
  { pattern := .cat jsEvalHead (.cat lazyAny fragGetByIdSet),
    id := "DOM_PROPERTY_SET",
    description := "page.evaluate() sets a property on a DOM element by ID",
    severity := "warning",
    rule := "Potential Rule Zero violation: verify this is read-only",
    lang := "js" },
  { pattern := .cat jsEvalHead (.cat lazyAny fragQuerySelSet),
    id := "DOM_QUERY_SET",
    description := "page.evaluate() sets a property on a queried DOM element",
    severity := "warning",
    rule := "Potential Rule Zero violation: verify this is read-only",
    lang := "js" }]

/-- `driver\.ExecuteScript\s*\(` -/
def csExecHead : Regex := rcat [rstr "driver.ExecuteScript", sStar, .lit '(']

/-- `\.style\s*\.\s*\w+\s*=` (C#/Python tier: no `\s*` after the first dot). -/
def csFragStyle : Regex :=
  rcat [.lit '.', rstr "style", sStar, .lit '.', sStar, wPlus, sStar, .lit '=']

/-- `\.hidden\s*=` -/
def csFragHidden : Regex := rcat [.lit '.', rstr "hidden", sStar, .lit '=']

/-- `\.(?:innerHTML|outerHTML)\s*=` -/
def csFragHtml : Regex :=
  rcat [.lit '.', .alt (rstr "innerHTML") (rstr "outerHTML"), sStar, .lit '=']

/-- `\.(?:className\s*=|classList\s*\.\s*(?:add|remove|toggle))` -/
def csFragClass : Regex :=
  rcat [.lit '.',
        .alt (rcat [rstr "className", sStar, .lit '='])
             (rcat [rstr "classList", sStar, .lit '.', sStar,
                    ralt [rstr "add", rstr "remove", rstr "toggle"]])]

/-- `\.remove\s*\(\s*\)` -/
def csFragRemove : Regex :=
  rcat [.lit '.', rstr "remove", sStar, .lit '(', sStar, .lit ')']

/-- `\.display\s*=\s*['"]` -/
def csFragDisplay : Regex :=
  rcat [.lit '.', rstr "display", sStar, .lit '=', sStar, .cls quoteChar2]

def CSHARP_VIOLATION_PATTERNS : List ViolationRule := [
  { pattern := .cat csExecHead (.cat lazyAny csFragStyle),
    id := "CS_DOM_STYLE_MUTATION",
    description := "ExecuteScript() modifies element .style property",
    severity := "critical",
    rule := "Rule Zero: Tests must never modify application CSS/styles",
    lang := "cs" },
  { pattern := .cat csExecHead (.cat lazyAny csFragHidden),
    id := "CS_DOM_HIDDEN_MUTATION",
    description := "ExecuteScript() modifies element .hidden property",
    severity := "critical",
    rule := "Rule Zero: Tests must never modify application visibility",
    lang := "cs" },
  { pattern := .cat csExecHead (.cat lazyAny csFragHtml),
    id := "CS_DOM_HTML_MUTATION",
    description := "ExecuteScript() modifies element innerHTML/outerHTML",
    severity := "critical",
    rule := "Rule Zero: Tests must never modify application DOM content",
    lang := "cs" },
  { pattern := .cat csExecHead (.cat lazyAny csFragClass),
    id := "CS_DOM_CLASS_MUTATION",
    description := "ExecuteScript() modifies element classes",
    severity := "critical",
    rule := "Rule Zero: Tests must never modify application CSS classes",
    lang := "cs" },
  { pattern := .cat csExecHead (.cat lazyAny csFragRemove),
    id := "CS_DOM_ELEMENT_REMOVAL",
    description := "ExecuteScript() removes DOM elements",
    severity := "critical",
    rule := "Rule Zero: Tests must never remove application elements",
    lang := "cs" },
  { pattern := .cat csExecHead (.cat lazyAny csFragDisplay),
    id := "CS_CSS_DISPLAY_OVERRIDE",
    description := "ExecuteScript() overrides CSS display property",
    severity := "critical",
    rule := "Rule Zero: Tests must never override application CSS display",
    lang := "cs" },
  { pattern := .cat csExecHead (.cat lazyAny fragGetByIdSet),
    id := "CS_DOM_PROPERTY_SET",
    description := "ExecuteScript() sets a property on a DOM element by ID",
    severity := "warning",
    rule := "Potential Rule Zero violation: verify this is read-only",
    lang := "cs" }]

/-- `driver\.execute_script\s*\(` -/
def pyExecHead : Regex := rcat [rstr "driver.execute_script", sStar, .lit '(']

def PYTHON_VIOLATION_PATTERNS : List ViolationRule := [
  { pattern := .cat pyExecHead (.cat lazyAny csFragStyle),
    id := "PY_DOM_STYLE_MUTATION",
    description := "execute_script() modifies element .style property",
    severity := "critical",
    rule := "Rule Zero: Tests must never modify application CSS/styles",
    lang := "py" },
  { pattern := .cat pyExecHead (.cat lazyAny csFragHidden),
    id := "PY_DOM_HIDDEN_MUTATION",
    description := "execute_script() modifies element .hidden property",
    severity := "critical",
    rule := "Rule Zero: Tests must never modify application visibility",
    lang := "py" },
  { pattern := .cat pyExecHead (.cat lazyAny csFragHtml),
    id := "PY_DOM_HTML_MUTATION",
    description := "execute_script() modifies element innerHTML/outerHTML",
    severity := "critical",
    rule := "Rule Zero: Tests must never modify application DOM content",
    lang := "py" },
  { pattern := .cat pyExecHead (.cat lazyAny csFragClass),
    id := "PY_DOM_CLASS_MUTATION",
    description := "execute_script() modifies element classes",
    severity := "critical",
    rule := "Rule Zero: Tests must never modify application CSS classes",
    lang := "py" },
  { pattern := .cat pyExecHead (.cat lazyAny csFragRemove),
    id := "PY_DOM_ELEMENT_REMOVAL",
    description := "execute_script() removes DOM elements",
    severity := "critical",
    rule := "Rule Zero: Tests must never remove application elements",
    lang := "py" },
  { pattern := .cat pyExecHead (.cat lazyAny csFragDisplay),
    id := "PY_CSS_DISPLAY_OVERRIDE",
    description := "execute_script() overrides CSS display property",
    severity := "critical",
    rule := "Rule Zero: Tests must never override application CSS display",
    lang := "py" },
  { pattern := .cat pyExecHead (.cat lazyAny fragGetByIdSet),
    id := "PY_DOM_PROPERTY_SET",
    description := "execute_script() sets a property on a DOM element by ID",
    severity := "warning",
    rule := "Potential Rule Zero violation: verify this is read-only",
    lang := "py" }]

def ALL_VIOLATION_PATTERNS : List ViolationRule :=
  JS_VIOLATION_PATTERNS ++ CSHARP_VIOLATION_PATTERNS ++ PYTHON_VIOLATION_PATTERNS

/-! ## Scanner -/

structure Violation where
  file : String
  line : Nat
  id : String
  severity : String
  description : String
  rule : String
  context : String
deriving DecidableEq

/-- `path.relative(process.cwd(), filePath)` for the one shape the linter
produces (`filePath` under `cwd`, or unrelated). -/
def relativePath (cwd p : String) : String :=
  if strStartsWith p (cwd ++ "/") then ⟨p.data.drop (cwd.length + 1)⟩ else p

/-- Extension dispatch (`/\.cs$/`, `/\.py$/`, `/\.go$/` tests; anchored
regexes on a filename are suffix tests). -/
def getFileLanguage (filePath : String) : String :=
  if strEndsWith filePath ".cs" then "cs"
  else if strEndsWith filePath ".py" then "py"
  else if strEndsWith filePath ".go" then "go"
  else "js"

/-- `content.substring(0, matchIndex).split('\n').length` — the 1-based line
number of character index `idx`. -/
def lineOfIndex (content : List Char) (idx : Nat) : Nat :=
  (splitOnCharL '\n' (content.take idx)).length

/-- The body of `scanFile` after the file content has been read. -/
def scanContent (cwd filePath content : String) : List Violation :=
  let lines := strSplitNl content
  let lang := getFileLanguage filePath
  let applicablePatterns := ALL_VIOLATION_PATTERNS.filter (fun rule =>
    if rule.lang == lang then true
    else if rule.lang == "js" && lang == "js" then true
    else false)
  applicablePatterns.flatMap (fun rule =>
    (gmatch rule.pattern content.data).map (fun m =>
      let matchIndex := (indexOfSub content.data m).getD 0
      let lineNum := lineOfIndex content.data matchIndex
      let contextStart := lineNum - 3
      let contextEnd := min lines.length (lineNum + 5)
      let context := joinNl ((lines.drop contextStart).take (contextEnd - contextStart))
      { file := relativePath cwd filePath, line := lineNum, id := rule.id,
        severity := rule.severity, description := rule.description,
        rule := rule.rule, context := context }))

/-! ## Test-file discovery -/

/-- The eight purely suffix-anchored entries of `TEST_FILE_PATTERNS`
(each `/X$/` with `X` literal up to escapes, plus `/.*_test\.py$/` and
`/.*_test\.go$/`, whose leading `.*` may be empty). -/
def TEST_FILE_SUFFIXES : List String :=
  [".spec.js", ".test.js", ".spec.ts", ".test.ts", ".spec.mjs", ".test.mjs",
   "Tests.cs", "_test.py", "_test.go"]

def containsSub (hay needle : List Char) : Bool := (indexOfSub hay needle).isSome

/-- `TEST_FILE_PATTERNS.some(p => p.test(filename))`.  The only
non-suffix entry is `/test_.*\.py$/`: since `.` does not cross `\n`, it
holds exactly when the name ends in `.py` and its final line contains
`test_`. -/
def isTestFile (filename : String) : Bool :=
  TEST_FILE_SUFFIXES.any (fun suf => strEndsWith filename suf) ||
    (strEndsWith filename ".py" &&
      containsSub ((strSplitNl filename).getLastD "").data "test_".data)

/-! ## Filesystem model

The linter's effects are reads of a fixed directory tree.  A `FileSys` maps
absolute paths to nodes; an `unreadable` node is a file whose
`readFileSync` throws (e.g. permissions), which `Except.error` models. -/

inductive FNode where
  | file (content : String)
  | directory (children : List String)
  | unreadable
deriving DecidableEq

structure FileSys where
  entries : List (String × FNode)

def FileSys.lookup (fs : FileSys) (p : String) : Option FNode :=
  (fs.entries.find? (fun e => e.1 == p)).map (·.2)

def existsSync (fs : FileSys) (p : String) : Bool := (fs.lookup p).isSome

def isDirectorySync (fs : FileSys) (p : String) : Bool :=
  match fs.lookup p with
  | some (.directory _) => true
  | _ => false

def readFileSync (fs : FileSys) (p : String) : Except String String :=
  match fs.lookup p with
  | some (.file c) => .ok c
  | some .unreadable => .error ("EACCES: permission denied, open " ++ p)
  | some (.directory _) => .error ("EISDIR: illegal operation on a directory, read " ++ p)
  | none => .error ("ENOENT: no such file or directory, open " ++ p)

def SKIP_DIRS : List String :=
  ["node_modules", ".git", "bin", "obj", "__pycache__", ".venv", "venv"]

/-- `path.join`/`path.isAbsolute` for the joins the linter performs. -/
def resolvePath (root p : String) : String :=
  if strStartsWith p "/" then p else root ++ "/" ++ p

/-- `findTestFilesRecursive`, with fuel standing in for the finiteness of a
real (acyclic) directory tree; `fsFuel` below always suffices for trees. -/
def findTestFilesRecursive (fs : FileSys) : Nat → String → List String
  | 0, _ => []
  | fuel + 1, dir =>
    match fs.lookup dir with
    | none => []
    | some (.directory children) =>
      children.flatMap (fun name =>
        let fullPath := dir ++ "/" ++ name
        match fs.lookup fullPath with
        | some (.directory _) =>
          if SKIP_DIRS.contains name then []
          else findTestFilesRecursive fs fuel fullPath
        | some (.file _) => if isTestFile name then [fullPath] else []
        | some .unreadable => if isTestFile name then [fullPath] else []
        | none => [])
    | some _ => []

def fsFuel (fs : FileSys) : Nat := fs.entries.length + 1

def AUTO_DETECT_DIRS : List String := ["tests", "test", "__tests__", "spec", "Tests"]

def resolveTestDirs (fs : FileSys) (cliDir : Option String) (projectRoot : String) :
    List String :=
  match cliDir with
  | some d => [resolvePath projectRoot d]
  | none =>
    (AUTO_DETECT_DIRS.map (fun dir => projectRoot ++ "/" ++ dir)).filter
      (fun candidate => existsSync fs candidate && isDirectorySync fs candidate)

/-! ## Linter main: batch scan, dedup, severity partition, exit code -/

/-- `scanFile` including its (uncaught-on-failure) `readFileSync`. -/
def scanFile (fs : FileSys) (cwd filePath : String) : Except String (List Violation) :=
  (readFileSync fs filePath).map (scanContent cwd filePath)

/-- The `for (const file of files) allViolations = allViolations.concat(scanFile(file))`
loop; a read failure propagates as an exception and aborts the loop. -/
def runScanBatch (fs : FileSys) (cwd : String) : List String → Except String (List Violation)
  | [] => .ok []
  | f :: rest => do
    let violations ← scanFile fs cwd f
    let more ← runScanBatch fs cwd rest
    pure (violations ++ more)

def vKey (v : Violation) : String :=
  v.file ++ ":" ++ toString v.line ++ ":" ++ v.id

/-- The `seen`-set filter deduplicating by `${file}:${line}:${id}`. -/
def dedupFilter : List Violation → List String → List Violation
  | [], _ => []
  | v :: rest, seen =>
    if seen.contains (vKey v) then dedupFilter rest seen
    else v :: dedupFilter rest (vKey v :: seen)

def dedupViolations (l : List Violation) : List Violation := dedupFilter l []

structure CliArgs where
  cliDir : Option String
  cliFile : Option String
  jsonOutput : Bool

/-- `main` from the point where the file list is known.  An uncaught read
exception terminates the node process with a nonzero status (1). -/
def mainAfterDiscovery (fs : FileSys) (root : String) (a : CliArgs)
    (files : List String) : Nat :=
  if files.isEmpty then 0
  else
    match runScanBatch fs root files with
    | .error _ => 1
    | .ok allViolations =>
      let deduped := dedupViolations allViolations
      let critical := deduped.filter (fun v => v.severity == "critical")
      if a.jsonOutput then (if critical.length > 0 then 1 else 0)
      else if deduped.isEmpty then 0
      else if critical.length > 0 then 1 else 0

/-- The linter's `main`, as the exit code it reaches. -/
def mainExit (fs : FileSys) (root : String) (a : CliArgs) : Nat :=
  match a.cliFile with
  | some f =>
    let resolved := resolvePath root f
    if existsSync fs resolved then mainAfterDiscovery fs root a [resolved] else 1
  | none =>
    let dirs := resolveTestDirs fs a.cliDir root
    if dirs.isEmpty then 0
    else mainAfterDiscovery fs root a (dirs.flatMap (findTestFilesRecursive fs (fsFuel fs)))

/-! ## Report generator (`scripts/report-generator.js`) -/

/-! ### `stripAnsi` — `str.replace(/\u001b\[\d+m/g, '')` -/

/-- Does `\u001b\[\d+m` match at the head of `l`?  If so, return the rest
after the match (ESC, `[`, a maximal nonempty digit run, `m`). -/
def ansiMatchHead (l : List Char) : Option (List Char) :=
  match l with
  | c1 :: c2 :: rest =>
    if c1 = '\x1b' && c2 = '[' then
      if (rest.takeWhile Char.isDigit).isEmpty then none
      else if (rest.drop (rest.takeWhile Char.isDigit).length).head? = some 'm' then
        some (rest.drop (rest.takeWhile Char.isDigit).length).tail
      else none
    else none
  | _ => none

theorem ansiMatchHead_length {l t : List Char} (h : ansiMatchHead l = some t) :
    t.length < l.length := by
  unfold ansiMatchHead at h
  split at h
  · split at h
    · split at h
      · exact absurd h (by simp)
      · split at h
        · cases h
          simp [List.length_tail, List.length_drop]
          omega
        · exact absurd h (by simp)
    · exact absurd h (by simp)
  · exact absurd h (by simp)

/-- The global single-pass replace: at each position, if the pattern matches,
delete the match and continue after it; otherwise keep the character.
Structural recursion on a fuel bounding the number of steps; every step
consumes at least one character, so `l.length + 1` fuel always suffices. -/
def stripAnsiGo : Nat → List Char → List Char
  | 0, l => l
  | fuel + 1, l =>
    match ansiMatchHead l with
    | some tail => stripAnsiGo fuel tail
    | none =>
      match l with
      | [] => []
      | c :: rest => c :: stripAnsiGo fuel rest

def stripAnsiList (l : List Char) : List Char := stripAnsiGo (l.length + 1) l

def stripAnsi (s : String) : String := ⟨stripAnsiList s.data⟩

/-- Every ESC character in `l` begins a `\u001b\[\d+m` sequence (the
"simple single-parameter color escapes only" hypothesis); fueled like
`stripAnsiGo`. -/
def escAllSimpleGo : Nat → List Char → Bool
  | 0, _ => false
  | fuel + 1, l =>
    match l with
    | [] => true
    | c :: rest =>
      if c = '\x1b' then
        match ansiMatchHead (c :: rest) with
        | some tail => escAllSimpleGo fuel tail
        | none => false
      else escAllSimpleGo fuel rest

def escAllSimple (l : List Char) : Bool := escAllSimpleGo (l.length + 1) l

/-! ### Test-run results model and ingestion -/

structure TestResultR where
  status : String
  duration : Int
  stdout : List String
  errors : List String
deriving DecidableEq

structure TestEntry where
  projectName : String
  results : List TestResultR
deriving DecidableEq

structure SpecEntry where
  title : String
  line : Nat
  tests : List TestEntry
deriving DecidableEq

inductive Suite where
  | mk (file : String) (specs : List SpecEntry) (suites : List Suite)

structure Results where
  suites : List Suite

mutual

/-- Pre-order walk pairing each spec with its enclosing suite's `file`. -/
def suiteSpecPairs : Suite → List (String × SpecEntry)
  | .mk file specs subs => specs.map (fun sp => (file, sp)) ++ suitesSpecPairs subs

def suitesSpecPairs : List Suite → List (String × SpecEntry)
  | [] => []
  | s :: rest => suiteSpecPairs s ++ suitesSpecPairs rest

end

/-- `/^(AC-\d+)/` on a title. -/
def extractAC (title : String) : Option String :=
  match title.data with
  | 'A' :: 'C' :: '-' :: rest =>
    let ds := rest.takeWhile Char.isDigit
    if ds.isEmpty then none else some ⟨'A' :: 'C' :: '-' :: ds⟩
  | _ => none

/-- `(AC-\d+)[:\s]+(.+)` at the head of `cs`: returns the two capture groups
(the AC id and the rest-of-line description).  When the line ends in
punctuation/space only, the greedy `[:\s]+` gives one character back to
`.+`, so the description is that single character. -/
def parseACAfter (cs : List Char) : Option (String × String) :=
  match cs with
  | 'A' :: 'C' :: '-' :: rest =>
    let ds := rest.takeWhile Char.isDigit
    if ds.isEmpty then none
    else
      let tail := rest.drop ds.length
      let punct := tail.takeWhile (fun c => c = ':' || jsSpaceChar c)
      if punct.isEmpty then none
      else
        let rest2 := tail.drop punct.length
        if rest2.isEmpty then
          if punct.length ≥ 2 then
            some (⟨'A' :: 'C' :: '-' :: ds⟩, ⟨[punct.getLastD ' ']⟩)
          else none
        else some (⟨'A' :: 'C' :: '-' :: ds⟩, ⟨rest2⟩)
  | _ => none

/-- The line-start alternation `(?:^#+\s*|^[-*]\s*|^)` of the markdown AC
pattern: the three alternatives have disjoint first characters, so the
marker consumption is deterministic. -/
def mdAfterMarker (cs : List Char) : List Char :=
  match cs with
  | '#' :: _ => (cs.dropWhile (· = '#')).dropWhile jsSpaceChar
  | '-' :: rest => rest.dropWhile jsSpaceChar
  | '*' :: rest => rest.dropWhile jsSpaceChar
  | _ => cs

/-- `.replace(/\*+/g, '')`. -/
def destar (s : String) : String := ⟨s.data.filter (· ≠ '*')⟩

/-! ### Minimal YAML parser (`parseSimpleYaml`) -/

inductive YVal where
  | str (s : String)
  | obj (entries : List (String × String))
  | arr (items : List String)
deriving DecidableEq

/-- JS object assignment `m[k] = v`: overwrite in place or append. -/
def upsertA {β : Type} : List (String × β) → String → β → List (String × β)
  | [], k, v => [(k, v)]
  | (k', v') :: rest, k, v =>
    if k' = k then (k', v) :: rest else (k', v') :: upsertA rest k v

def lookupA {β : Type} (m : List (String × β)) (k : String) : Option β :=
  (m.find? (fun e => e.1 == k)).map (·.2)

/-- `(\w[\w-]*):\s*(.*)` at the head: key then colon, value with leading
whitespace stripped (the rest of the line). -/
def parseKeyColon (cs : List Char) : Option (String × String) :=
  match cs with
  | c :: rest =>
    if jsWordChar c then
      let keyTail := rest.takeWhile (fun ch => jsWordChar ch || ch = '-')
      match rest.drop keyTail.length with
      | ':' :: restv => some (⟨c :: keyTail⟩, ⟨restv.dropWhile jsSpaceChar⟩)
      | _ => none
    else none
  | [] => none

/-- `^(\w[\w-]*):\s*(.*)` with the `!line.startsWith(' ')` guard. -/
def parseTopLine (l : String) : Option (String × String) :=
  if strStartsWith l " " then none else parseKeyColon l.data

/-- `^  (\w[\w-]*):\s*(.*)` — exactly two leading spaces. -/
def parseNestedLine (l : String) : Option (String × String) :=
  match l.data with
  | ' ' :: ' ' :: rest => parseKeyColon rest
  | _ => none

/-- `^  - (.*)`. -/
def parseArrayLine (l : String) : Option String :=
  match l.data with
  | ' ' :: ' ' :: '-' :: ' ' :: rest => some ⟨rest⟩
  | _ => none

structure YState where
  result : List (String × YVal)
  currentSection : Option String
  currentSubKey : Option String

def yamlStep (st : YState) (rawLine : String) : YState :=
  let line : String := if strEndsWith rawLine "\r" then ⟨rawLine.data.dropLast⟩ else rawLine
  let stripped := line.data.dropWhile jsSpaceChar
  if stripped.head? = some '#' || stripped.isEmpty then st
  else
    match parseTopLine line with
    | some (k, rawv) =>
      let val := trimJs rawv
      { result := upsertA st.result k (if val.isEmpty then .obj [] else .str val),
        currentSection := some k, currentSubKey := none }
    | none =>
      match parseNestedLine line, st.currentSection with
      | some (k, rawv), some sec =>
        (match lookupA st.result sec with
         | some (.obj es) =>
           let val := trimJs rawv
           if val.isEmpty then { st with currentSubKey := some k }
           else { st with result := upsertA st.result sec (.obj (upsertA es k val)),
                          currentSubKey := some k }
         | _ => st)
      | _, _ =>
        match parseArrayLine line, st.currentSection with
        | some item, some sec =>
          (match lookupA st.result sec with
           | some (.arr xs) => { st with result := upsertA st.result sec (.arr (xs ++ [trimJs item])) }
           | _ => { st with result := upsertA st.result sec (.arr [trimJs item]) })
        | _, _ => st

def parseSimpleYaml (content : String) : List (String × YVal) :=
  ((strSplitNl content).foldl yamlStep ⟨[], none, none⟩).result

/-! ### AC definition loading -/

/-- `parseInt(v, 10)`: optional leading whitespace and sign, then a maximal
run of decimal digits; `none` models `NaN`. -/
def parseIntJs (s : String) : Option Int :=
  let cs := s.data.dropWhile jsSpaceChar
  let signed : Int × List Char :=
    match cs with
    | '-' :: rest => (-1, rest)
    | '+' :: rest => (1, rest)
    | _ => (1, cs)
  let ds := signed.2.takeWhile Char.isDigit
  if ds.isEmpty then none
  else some (signed.1 * ((ds.foldl (fun a c => a * 10 + (c.toNat - '0'.toNat)) 0 : Nat) : Int))

/-- `parseInt(val, 10) || 1` — `NaN` and `0` fall back to `1`. -/
def jsOrOne : Option Int → Int
  | some n => if n = 0 then 1 else n
  | none => 1

structure ACData where
  definitions : List (String × String)
  minimums : List (String × Int)
  projectName : Option YVal
deriving DecidableEq

/-- `x && typeof x === 'object'` then `Object.entries(x)`: objects give their
entries, arrays their index/value pairs, strings fail the `typeof` guard. -/
def yvalEntries : Option YVal → Option (List (String × String))
  | some (.obj es) => some es
  | some (.arr xs) => some (xs.enum.map (fun p => (toString p.1, p.2)))
  | _ => none

def yTruthy : YVal → Bool
  | .str s => !s.isEmpty
  | .obj _ => true
  | .arr _ => true

def loadACFromConfig (fs : FileSys) (configPath : String) : Option ACData :=
  if !(existsSync fs configPath) then none
  else
    match readFileSync fs configPath with
    | .error _ => none
    | .ok content =>
      let config := parseSimpleYaml content
      let defs := (yvalEntries (lookupA config "acceptance-criteria")).getD []
      let mins0 := defs.map (fun kv => (kv.1, (1 : Int)))
      let minEntries := (yvalEntries (lookupA config "minimum-tests")).getD []
      let mins := minEntries.foldl (fun m kv => upsertA m kv.1 (jsOrOne (parseIntJs kv.2))) mins0
      let projectName := (lookupA config "project-name").filter yTruthy <|>
                         (lookupA config "name").filter yTruthy
      if defs.length > 0 then some ⟨defs, mins, projectName⟩ else none

def loadACFromMarkdown (fs : FileSys) (mdPath : String) : Option ACData :=
  if !(existsSync fs mdPath) then none
  else
    match readFileSync fs mdPath with
    | .error _ => none
    | .ok content =>
      let entries := (strSplitNl content).filterMap (fun line =>
        (parseACAfter (mdAfterMarker line.data)).map (fun p => (p.1, destar (trimJs p.2))))
      let defs := entries.foldl (fun m kv => upsertA m kv.1 kv.2) []
      let mins := entries.foldl (fun m kv => upsertA m kv.1 (1 : Int)) []
      if defs.length > 0 then some ⟨defs, mins, none⟩ else none

def loadACFromTestResults (results : Results) : Option ACData :=
  let step := fun (acc : List (String × String) × List (String × Int)) (sp : SpecEntry) =>
    match parseACAfter sp.title.data with
    | some (acId, rawDesc) =>
      let absent := match lookupA acc.1 acId with
        | none => true
        | some d => d.isEmpty
      if absent then (upsertA acc.1 acId (trimJs rawDesc), upsertA acc.2 acId (1 : Int))
      else acc
    | none => acc
  let dm := ((suitesSpecPairs results.suites).map (·.2)).foldl step ([], [])
  if dm.1.length > 0 then some ⟨dm.1, dm.2, none⟩ else none

/-- A source of AC definitions the resolver may consult (read). -/
inductive ACSource where
  | explicitConfig (p : String)
  | conventionalConfig (p : String)
  | markdown (p : String)
  | fromTests
deriving DecidableEq

def MD_CANDIDATES (root : String) : List String :=
  [root ++ "/docs/acceptance-criteria.md",
   root ++ "/docs/acceptance_criteria.md",
   root ++ "/acceptance-criteria.md"]

/-- The `for (const mdPath of mdCandidates)` loop, recording which markdown
files were consulted. -/
def tryMarkdownList (fs : FileSys) : List String → Option ACData × List ACSource
  | [] => (none, [])
  | p :: rest =>
    match loadACFromMarkdown fs p with
    | some r => (some r, [.markdown p])
    | none =>
      let out := tryMarkdownList fs rest
      (out.1, .markdown p :: out.2)

/-- `loadACDefinitions`, paired with the ordered list of sources actually
consulted.  The fallback result is the empty catalog. -/
def loadACDefinitions (fs : FileSys) (root : String) (cliConfig : Option String)
    (results : Results) : ACData × List ACSource :=
  let step1 : Option ACData × List ACSource :=
    match cliConfig with
    | some c =>
      let resolved := resolvePath root c
      (loadACFromConfig fs resolved, [.explicitConfig resolved])
    | none => (none, [])
  match step1 with
  | (some r, tr) => (r, tr)
  | (none, tr0) =>
    let configPath := root ++ "/teamwerk-config.yml"
    match loadACFromConfig fs configPath with
    | some r => (r, tr0 ++ [.conventionalConfig configPath])
    | none =>
      let tr1 := tr0 ++ [.conventionalConfig configPath]
      match tryMarkdownList fs (MD_CANDIDATES root) with
      | (some r, mdtr) => (r, tr1 ++ mdtr)
      | (none, mdtr) =>
        let tr2 := tr1 ++ mdtr
        match loadACFromTestResults results with
        | some r => (r, tr2 ++ [.fromTests])
        | none => (⟨[], [], none⟩, tr2 ++ [.fromTests])

/-! ### Ingestion of test records -/

/-- `(result.stdout || []).map(s => stripAnsi(s.text || '')).join('')`. -/
def joinedStdout (texts : List String) : String :=
  (texts.map stripAnsi).foldl (fun acc s => acc ++ s) ""

structure TestRecord where
  title : String
  ac : Option String
  file : String
  line : Nat
  status : String
  duration : Int
  stdout : String
  errors : List String
  project : String
deriving DecidableEq

/-- The `walkSuites` of `main`: first test entry, first result entry of each
spec; specs with no tests or no results are skipped. -/
def ingestTests (results : Results) : List TestRecord :=
  (suitesSpecPairs results.suites).filterMap (fun fsp =>
    match fsp.2.tests with
    | [] => none
    | test :: _ =>
      match test.results with
      | [] => none
      | r :: _ =>
        some { title := fsp.2.title, ac := extractAC fsp.2.title, file := fsp.1,
               line := fsp.2.line, status := r.status, duration := r.duration,
               stdout := joinedStdout r.stdout, errors := r.errors,
               project := test.projectName })

/-! ### AC traceability matrix -/

/-- `t.title.replace(/^AC-\d+[:\s]+/, '')` — delete the anchored prefix
match, if any (greedy `[:\s]+`). -/
def stripACTitleHead (title : String) : String :=
  match title.data with
  | 'A' :: 'C' :: '-' :: rest =>
    let ds := rest.takeWhile Char.isDigit
    if ds.isEmpty then title
    else
      let tail := rest.drop ds.length
      let punct := tail.takeWhile (fun c => c = ':' || jsSpaceChar c)
      if punct.isEmpty then title else ⟨tail.drop punct.length⟩
  | _ => title

/-- The discovery pass over ingested tests: any `AC-n`-tagged test whose id
is not yet (truthily) defined registers the stripped title (first 60 chars)
with minimum 1. -/
def discoverACs (acDefs : List (String × String)) (acMins : List (String × Int))
    (allTests : List TestRecord) : List (String × String) × List (String × Int) :=
  allTests.foldl (fun acc t =>
    match t.ac with
    | some ac =>
      let absent := match lookupA acc.1 ac with
        | none => true
        | some d => d.isEmpty
      if absent then
        (upsertA acc.1 ac ⟨(stripACTitleHead t.title).data.take 60⟩, upsertA acc.2 ac (1 : Int))
      else acc
    | none => acc) (acDefs, acMins)

/-- `AC_MINIMUMS[ac] || 1`. -/
def minOf (mins : List (String × Int)) (ac : String) : Int :=
  match lookupA mins ac with
  | some n => if n = 0 then 1 else n
  | none => 1

/-- `acGroups[ac] = allTests.filter(t => t.ac === ac)`. -/
def acGroup (allTests : List TestRecord) (ac : String) : List TestRecord :=
  allTests.filter (fun t => t.ac == some ac)

/-- The status badge of an AC row of the traceability matrix. -/
def statusBadgeSpan (tests : List TestRecord) (min : Int) : String :=
  let failCount := (tests.filter (fun t => t.status != "passed")).length
  let total := tests.length
  let meetsMinimum := decide (min ≤ (total : Int))
  let allPass := failCount == 0 && decide (0 < total)
  if allPass && meetsMinimum then "<span class=\"pass-badge\">PASS</span>"
  else if failCount > 0 then "<span class=\"fail-badge\">FAIL</span>"
  else "<span class=\"skip-badge\">BELOW MIN</span>"

/-! ## Engine lemmas

A successful run of a matcher hands some suffix of its input to its
continuation; this is what lets a match of a concatenation be decomposed
into a match of its last factor somewhere inside the input. -/

theorem starLrun_suffix (p : Char → Bool) (k : List Char → Option Nat) :
    ∀ (s : List Char) (n : Nat), starLrun p k s = some n →
      ∃ s2, s2 <:+ s ∧ k s2 = some n := by
  intro s
  induction s with
  | nil => intro n h; exact ⟨[], List.suffix_refl _, h⟩
  | cons c rest ih =>
    intro n h
    unfold starLrun at h
    split at h
    · next m heq => exact ⟨c :: rest, List.suffix_refl _, h ▸ heq⟩
    · split at h
      · obtain ⟨s2, hs, hk⟩ := ih n h
        exact ⟨s2, hs.trans (List.suffix_cons c rest), hk⟩
      · exact absurd h (by simp)

theorem starGrun_suffix (p : Char → Bool) (k : List Char → Option Nat) :
    ∀ (s : List Char) (n : Nat), starGrun p k s = some n →
      ∃ s2, s2 <:+ s ∧ k s2 = some n := by
  intro s
  induction s with
  | nil => intro n h; exact ⟨[], List.suffix_refl _, h⟩
  | cons c rest ih =>
    intro n h
    unfold starGrun at h
    split at h
    · split at h
      · next m heq =>
        obtain ⟨s2, hs, hk⟩ := ih m heq
        exact ⟨s2, hs.trans (List.suffix_cons c rest), h ▸ hk⟩
      · exact ⟨c :: rest, List.suffix_refl _, h⟩
    · exact ⟨c :: rest, List.suffix_refl _, h⟩

theorem mrun_suffix (r : Regex) :
    ∀ (s : List Char) (k : List Char → Option Nat) (n : Nat),
      mrun r s k = some n → ∃ s2, s2 <:+ s ∧ k s2 = some n := by
  induction r with
  | eps => exact fun s k n h => ⟨s, List.suffix_refl _, h⟩
  | lit c =>
    intro s k n h
    match s with
    | [] => exact absurd h (by simp [mrun])
    | a :: s' =>
      unfold mrun at h
      split at h
      · exact ⟨s', List.suffix_cons a s', h⟩
      · exact absurd h (by simp)
  | cls p =>
    intro s k n h
    match s with
    | [] => exact absurd h (by simp [mrun])
    | a :: s' =>
      unfold mrun at h
      split at h
      · exact ⟨s', List.suffix_cons a s', h⟩
      · exact absurd h (by simp)
  | cat r1 r2 ih1 ih2 =>
    intro s k n h
    unfold mrun at h
    obtain ⟨s2, hs2, hk2⟩ := ih1 s _ n h
    obtain ⟨s3, hs3, hk3⟩ := ih2 s2 k n hk2
    exact ⟨s3, hs3.trans hs2, hk3⟩
  | alt r1 r2 ih1 ih2 =>
    intro s k n h
    unfold mrun at h
    split at h
    · next heq => exact (Option.some.injEq _ _).mp h ▸ ih1 s k _ heq
    · exact ih2 s k n h
  | opt r1 ih1 =>
    intro s k n h
    unfold mrun at h
    split at h
    · next heq => exact (Option.some.injEq _ _).mp h ▸ ih1 s k _ heq
    · exact ⟨s, List.suffix_refl _, h⟩
  | starL p => exact fun s k n h => starLrun_suffix p k s n h
  | starG p => exact fun s k n h => starGrun_suffix p k s n h
  | plusG p =>
    intro s k n h
    match s with
    | [] => exact absurd h (by simp [mrun])
    | a :: s' =>
      unfold mrun at h
      split at h
      · obtain ⟨s2, hs2, hk⟩ := starGrun_suffix p k s' n h
        exact ⟨s2, hs2.trans (List.suffix_cons a s'), hk⟩
      · exact absurd h (by simp)

/-- A match of `r` at a suffix position makes the search succeed. -/
theorem searchB_of_suffix {r : Regex} :
    ∀ {s t : List Char}, t <:+ s → (matchAt r t).isSome → searchB r s = true := by
  intro s
  induction s with
  | nil =>
    intro t ht hm
    rw [List.suffix_nil.mp ht] at hm
    unfold searchB
    simp [hm]
  | cons c rest ih =>
    intro t ht hm
    unfold searchB
    rcases List.suffix_cons_iff.mp ht with h | h
    · subst h; simp [hm]
    · simp [ih h hm]

/-- No match of `r` anywhere in `c`: every suffix fails. -/
theorem matchAt_none_of_searchB {r : Regex} {c : List Char}
    (hs : searchB r c = false) : ∀ t, t <:+ c → matchAt r t = none := by
  intro t htc
  cases hmt : matchAt r t with
  | none => rfl
  | some n =>
    have := searchB_of_suffix htc (by rw [hmt]; rfl)
    rw [this] at hs
    exact absurd hs (by simp)

/-- When the final factor of a `head [\s\S]*? frag` pattern matches nowhere in
`c`, the whole pattern matches at no suffix of `c` either. -/
theorem matchAt_none_of_searchB_frag (A frag : Regex) {c : List Char}
    (hs : searchB frag c = false) :
    ∀ t, t <:+ c → matchAt (Regex.cat A (Regex.cat lazyAny frag)) t = none := by
  intro t htc
  cases hmt : matchAt (Regex.cat A (Regex.cat lazyAny frag)) t with
  | none => rfl
  | some n =>
    exfalso
    unfold matchAt at hmt
    split at hmt
    · next n0 heq =>
      unfold mrun at heq
      obtain ⟨s2, hs2, hk2⟩ := mrun_suffix A t _ n0 heq
      unfold mrun at hk2
      obtain ⟨s3, hs3, hk3⟩ := mrun_suffix lazyAny s2 _ n0 hk2
      have hsome : (matchAt frag s3).isSome := by
        unfold matchAt
        rw [hk3]
        simp
      have := searchB_of_suffix ((hs3.trans hs2).trans htc) hsome
      rw [this] at hs
      exact absurd hs (by simp)
    · exact absurd hmt (by simp)

theorem gmatchGo_eq_nil (r : Regex) :
    ∀ (fuel : Nat) (s : List Char),
      (∀ t, t <:+ s → matchAt r t = none) → gmatchGo r fuel s = [] := by
  intro fuel
  induction fuel with
  | zero => intro s _; rfl
  | succ fuel ih =>
    intro s h
    match s with
    | [] =>
      simp only [gmatchGo]
      rw [h [] (List.suffix_refl _)]
    | c :: rest =>
      simp only [gmatchGo]
      rw [h (c :: rest) (List.suffix_refl _)]
      exact ih rest (fun t ht => h t (ht.trans (List.suffix_cons c rest)))

/-- If `r` matches at no suffix of `s`, the global match list is empty. -/
theorem gmatch_eq_nil (r : Regex) :
    ∀ (s : List Char), (∀ t, t <:+ s → matchAt r t = none) → gmatch r s = [] :=
  fun s h => gmatchGo_eq_nil r (s.length + 1) s h

/-! ## Claim C6: read-only snippets produce no violations -/

/-- C6: for every file scanned as JavaScript/TypeScript whose content has no
property assignment (no `.style.<prop> =`, `.hidden =`, `.innerHTML`/
`.outerHTML =`, `.className =`/`classList` mutation, `.display = '…'`
override, and no property set on an element obtained by
`getElementById`/`querySelector`), no element removal (`.remove()`), no tag
injection (`page.addStyleTag(`/`page.addScriptTag(`) and no
`new MutationObserver` construction — read-only introspection such as
`getComputedStyle`, `getBoundingClientRect` or `.textContent` reads being
allowed — the scanner reports zero violations. -/
theorem c6_read_only_clean (cwd path content : String)
    (hlang : getFileLanguage path = "js")
    (h1 : searchB fragStyleSet content.data = false)
    (h2 : searchB fragHiddenSet content.data = false)
    (h3 : searchB fragHtmlSet content.data = false)
    (h4 : searchB fragClassSet content.data = false)
    (h5 : searchB fragRemoveCall content.data = false)
    (h6 : searchB patDisplayOverride content.data = false)
    (h7 : searchB patMutationObserver content.data = false)
    (h8 : searchB patAddStyleTag content.data = false)
    (h9 : searchB patAddScriptTag content.data = false)
    (h10 : searchB fragGetByIdSet content.data = false)
    (h11 : searchB fragQuerySelSet content.data = false) :
    scanContent cwd path content = [] := by
  have g1 : gmatch (Regex.cat jsEvalHead (Regex.cat lazyAny fragStyleSet)) content.data = [] :=
    gmatch_eq_nil _ _ (matchAt_none_of_searchB_frag _ _ h1)
  have g2 : gmatch (Regex.cat jsEvalHead (Regex.cat lazyAny fragHiddenSet)) content.data = [] :=
    gmatch_eq_nil _ _ (matchAt_none_of_searchB_frag _ _ h2)
  have g3 : gmatch (Regex.cat jsEvalHead (Regex.cat lazyAny fragHtmlSet)) content.data = [] :=
    gmatch_eq_nil _ _ (matchAt_none_of_searchB_frag _ _ h3)
  have g4 : gmatch (Regex.cat jsEvalHead (Regex.cat lazyAny fragClassSet)) content.data = [] :=
    gmatch_eq_nil _ _ (matchAt_none_of_searchB_frag _ _ h4)
  have g5 : gmatch (Regex.cat jsEvalHead (Regex.cat lazyAny fragRemoveCall)) content.data = [] :=
    gmatch_eq_nil _ _ (matchAt_none_of_searchB_frag _ _ h5)
  have g6 : gmatch patDisplayOverride content.data = [] :=
    gmatch_eq_nil _ _ (matchAt_none_of_searchB h6)
  have g7 : gmatch patMutationObserver content.data = [] :=
    gmatch_eq_nil _ _ (matchAt_none_of_searchB h7)
  have g8 : gmatch patAddStyleTag content.data = [] :=
    gmatch_eq_nil _ _ (matchAt_none_of_searchB h8)
  have g9 : gmatch patAddScriptTag content.data = [] :=
    gmatch_eq_nil _ _ (matchAt_none_of_searchB h9)
  have g10 : gmatch (Regex.cat jsEvalHead (Regex.cat lazyAny fragGetByIdSet)) content.data = [] :=
    gmatch_eq_nil _ _ (matchAt_none_of_searchB_frag _ _ h10)
  have g11 : gmatch (Regex.cat jsEvalHead (Regex.cat lazyAny fragQuerySelSet)) content.data = [] :=
    gmatch_eq_nil _ _ (matchAt_none_of_searchB_frag _ _ h11)
  simp only [scanContent, hlang]
  have happ : ALL_VIOLATION_PATTERNS.filter (fun rule =>
      if rule.lang == "js" then true
      else if rule.lang == "js" && "js" == "js" then true
      else false) = JS_VIOLATION_PATTERNS := rfl
  rw [happ]
  simp only [JS_VIOLATION_PATTERNS, List.flatMap_cons, List.flatMap_nil,
    g1, g2, g3, g4, g5, g6, g7, g8, g9, g10, g11, List.map_nil, List.nil_append,
    List.append_nil]

/-- A representative read-only Playwright snippet. -/
def roSnippet : String :=
  "await page.evaluate(() => \x7b return getComputedStyle(document.body).color; \x7d);"

/-- Witness for C6 at a concrete read-only snippet. -/
theorem c6_read_only_clean_witness :
    scanContent "/proj" "/proj/tests/app.spec.ts" roSnippet = [] :=
  c6_read_only_clean _ _ _ (by decide) (by decide) (by decide) (by decide) (by decide)
    (by decide) (by decide) (by decide) (by decide) (by decide) (by decide) (by decide)

/-! ## Claim C10: Go test files are collected but inert -/

/-- C10: a `*_test.go` file is recognized as a test file by discovery, yet
scanning any Go-language file yields zero violations because no rule in the
catalog carries the `go` language scope. -/
theorem c10_go_files_inert (name cwd path content : String)
    (hname : strEndsWith name "_test.go" = true)
    (hlang : getFileLanguage path = "go") :
    isTestFile name = true ∧ scanContent cwd path content = [] := by
  constructor
  · simp [isTestFile, TEST_FILE_SUFFIXES, hname]
  · simp only [scanContent, hlang]
    rfl

/-- Witness for C10: a Go test file full of otherwise-flagged text. -/
theorem c10_go_files_inert_witness :
    isTestFile "handlers_test.go" = true ∧
    scanContent "/proj" "/proj/tests/handlers_test.go"
      "new MutationObserver page.addStyleTag( el.style.display = none" = [] :=
  c10_go_files_inert "handlers_test.go" "/proj" "/proj/tests/handlers_test.go" _
    (by decide) (by decide)

/-! ## Claim C7: violation line numbers (first-occurrence bug) -/

/-- Content with the same matched text (`new MutationObserver`) on lines 1
and 3. -/
def c7Content : String := "new MutationObserver(a)\nx\nnew MutationObserver(b)"

/-- C7: the scanner computes each violation's line from
`content.indexOf(match)` — the FIRST occurrence of the matched text — not
from the match's own offset.  On `c7Content` the two matches of
`MUTATION_OBSERVER` (offsets 0 and 26) are both reported at line 1, although
the second occurrence lies on line 3 (`lineOfIndex … 26 = 3`). -/
theorem c7_first_occurrence_line_bug :
    ((scanContent "/p" "/p/t.spec.js" c7Content).map Violation.line = [1, 1]) ∧
    ((scanContent "/p" "/p/t.spec.js" c7Content).map Violation.id =
      ["MUTATION_OBSERVER", "MUTATION_OBSERVER"]) ∧
    gmatch patMutationObserver c7Content.data =
      ["new MutationObserver".data, "new MutationObserver".data] ∧
    lineOfIndex c7Content.data 26 = 3 := by
  refine ⟨?_, ?_, ?_, ?_⟩ <;> decide

/-! ## Claim C1: linter exit codes -/

/-- C1 counterexample: a directory named explicitly with `--dir` that does
not exist makes `resolveTestDirs` return it unchecked; discovery then finds
no files and the process exits 0 — not 1 as the claim requires for a
nonexistent explicitly named path. -/
theorem c1_missing_dir_exits_zero :
    existsSync ⟨[]⟩ (resolvePath "/proj" "nope") = false ∧
    mainExit ⟨[]⟩ "/proj" ⟨some "nope", none, false⟩ = 0 := by
  exact ⟨by decide, by decide⟩

/-- C1 (amended): exit code `1` when the `--file` path does not exist or a
critical violation is found; `0` when no test directories are found, when no
test files are found, or when the (deduplicated) violations contain no
critical entry (clean or warnings only).  A nonexistent `--dir` falls under
"no test files found" and exits `0`. -/
theorem c1_exit_code_contract (fs : FileSys) (root : String) (a : CliArgs) :
    (∀ f, a.cliFile = some f → existsSync fs (resolvePath root f) = false →
      mainExit fs root a = 1) ∧
    (a.cliFile = none → resolveTestDirs fs a.cliDir root = [] → mainExit fs root a = 0) ∧
    (∀ files : List String, files = [] → mainAfterDiscovery fs root a files = 0) ∧
    (∀ files vs, runScanBatch fs root files = .ok vs →
      ((dedupViolations vs).filter (fun v => v.severity == "critical")).length = 0 →
      mainAfterDiscovery fs root a files = 0) ∧
    (∀ files vs, files ≠ [] → runScanBatch fs root files = .ok vs →
      0 < ((dedupViolations vs).filter (fun v => v.severity == "critical")).length →
      mainAfterDiscovery fs root a files = 1) := by
  refine ⟨?_, ?_, ?_, ?_, ?_⟩
  · intro f hf hex
    simp only [mainExit, hf, hex]
    simp
  · intro hf hd
    simp only [mainExit, hf, hd]
    simp
  · intro files hf
    subst hf
    rfl
  · intro files vs hrun hcrit
    unfold mainAfterDiscovery
    split
    · rfl
    · rw [hrun]
      simp only [hcrit]
      split
      · simp
      · split
        · rfl
        · simp
  · intro files vs hne hrun hcrit
    unfold mainAfterDiscovery
    split
    · next hemp => exact absurd (List.isEmpty_iff.mp hemp) hne
    · rw [hrun]
      have hlen : (((dedupViolations vs).filter (fun v => v.severity == "critical")).length > 0) := hcrit
      have hdne : (dedupViolations vs).isEmpty = false := by
        cases hd : (dedupViolations vs).isEmpty
        · rfl
        · rw [List.isEmpty_iff.mp hd] at hlen
          simp at hlen
      simp only [hdne]
      split
      · simp [hlen]
      · simp [hlen]

def fsClean : FileSys :=
  ⟨[("/proj/tests", .directory ["b.spec.js"]),
    ("/proj/tests/b.spec.js", .file "const t = await el.textContent();")]⟩

def fsCrit : FileSys :=
  ⟨[("/proj/tests", .directory ["c.spec.js"]),
    ("/proj/tests/c.spec.js", .file "new MutationObserver(cb)")]⟩

/-- Witness for C1 exercising each amended branch at concrete inputs. -/
theorem c1_exit_code_contract_witness :
    mainExit ⟨[]⟩ "/proj" ⟨none, some "a.spec.js", false⟩ = 1 ∧
    mainExit ⟨[]⟩ "/proj" ⟨none, none, false⟩ = 0 ∧
    mainAfterDiscovery fsClean "/proj" ⟨none, none, false⟩ ["/proj/tests/b.spec.js"] = 0 ∧
    mainAfterDiscovery fsCrit "/proj" ⟨none, none, false⟩ ["/proj/tests/c.spec.js"] = 1 := by
  refine ⟨(c1_exit_code_contract ⟨[]⟩ "/proj" _).1 "a.spec.js" rfl (by decide),
         (c1_exit_code_contract ⟨[]⟩ "/proj" _).2.1 rfl (by decide),
         (c1_exit_code_contract fsClean "/proj" _).2.2.2.1 _
           (scanContent "/proj" "/proj/tests/b.spec.js" "const t = await el.textContent();")
           rfl (by decide),
         (c1_exit_code_contract fsCrit "/proj" _).2.2.2.2 _
           (scanContent "/proj" "/proj/tests/c.spec.js" "new MutationObserver(cb)")
           (by decide) rfl (by decide)⟩

/-! ## Claim C2: batch-scan behavior on an unreadable file -/

def fsUnreadable : FileSys :=
  ⟨[("/proj/tests", .directory ["a.spec.js", "b.spec.js"]),
    ("/proj/tests/a.spec.js", .unreadable),
    ("/proj/tests/b.spec.js", .file "new MutationObserver(cb)")]⟩

/-- C2 counterexample: both files are discovered, but the unreadable first
file makes the whole batch abort with the read exception; the second file's
violation (which scanning it alone reports) never reaches the output — the
run is not resilient and nothing is "skipped with a diagnostic". -/
theorem c2_read_failure_aborts :
    findTestFilesRecursive fsUnreadable (fsFuel fsUnreadable) "/proj/tests" =
      ["/proj/tests/a.spec.js", "/proj/tests/b.spec.js"] ∧
    runScanBatch fsUnreadable "/proj" ["/proj/tests/a.spec.js", "/proj/tests/b.spec.js"] =
      .error "EACCES: permission denied, open /proj/tests/a.spec.js" ∧
    scanContent "/proj" "/proj/tests/b.spec.js" "new MutationObserver(cb)" ≠ [] := by
  refine ⟨by decide, rfl, by decide⟩

/-- The content a successful read returns (dead default for failed reads). -/
def contentOrEmpty (fs : FileSys) (f : String) : String :=
  match readFileSync fs f with
  | .ok c => c
  | .error _ => ""

/-- C2 (amended): the batch loop has no per-file error handling — any
unreadable file aborts the whole run with the propagated read exception, and
no violation list is produced; only when every file is readable is every
file scanned, the violations being concatenated in order. -/
theorem c2_batch_abort (fs : FileSys) (cwd : String) :
    (∀ files : List String, (∃ f ∈ files, ∃ e, readFileSync fs f = .error e) →
      ∃ e, runScanBatch fs cwd files = .error e) ∧
    (∀ files : List String, (∀ f ∈ files, ∃ c, readFileSync fs f = .ok c) →
      runScanBatch fs cwd files =
        .ok (files.flatMap (fun f => scanContent cwd f (contentOrEmpty fs f)))) := by
  constructor
  · intro files
    induction files with
    | nil => rintro ⟨f, hf, _⟩; exact absurd hf (List.not_mem_nil f)
    | cons g rest ih =>
      rintro ⟨f, hf, e, he⟩
      cases hr : readFileSync fs g with
      | error e' =>
        refine ⟨e', ?_⟩
        simp only [runScanBatch, scanFile, hr, Except.map, Except.bind]
        rfl
      | ok c =>
        rcases List.mem_cons.mp hf with rfl | hfr
        · rw [hr] at he; exact absurd he (by simp)
        · obtain ⟨e2, he2⟩ := ih ⟨f, hfr, e, he⟩
          refine ⟨e2, ?_⟩
          simp only [runScanBatch, scanFile, hr, Except.map, he2]
          rfl
  · intro files
    induction files with
    | nil => intro _; rfl
    | cons g rest ih =>
      intro hall
      obtain ⟨c, hc⟩ := hall g (List.mem_cons_self g rest)
      have hrest := ih (fun f hf => hall f (List.mem_cons_of_mem g hf))
      simp only [runScanBatch, scanFile, hc, Except.map, hrest, List.flatMap_cons]
      have hco : contentOrEmpty fs g = c := by simp [contentOrEmpty, hc]
      rw [hco]
      rfl

/-- Witness for C2 at the concrete filesystems. -/
theorem c2_batch_abort_witness :
    (∃ e, runScanBatch fsUnreadable "/proj"
      ["/proj/tests/a.spec.js", "/proj/tests/b.spec.js"] = .error e) ∧
    runScanBatch fsClean "/proj" ["/proj/tests/b.spec.js"] =
      .ok (["/proj/tests/b.spec.js"].flatMap
        (fun f => scanContent "/proj" f (contentOrEmpty fsClean f))) :=
  ⟨(c2_batch_abort fsUnreadable "/proj").1 _
      ⟨"/proj/tests/a.spec.js", by decide,
       "EACCES: permission denied, open /proj/tests/a.spec.js", rfl⟩,
   (c2_batch_abort fsClean "/proj").2 _
      (by
        intro f hf
        rcases List.mem_singleton.mp hf with rfl
        exact ⟨"const t = await el.textContent();", rfl⟩)⟩

/-! ## Claim C9: ANSI color-escape stripping -/

/-- C9 counterexample: `stripAnsi` removes only `ESC [ digits m`; the
multi-parameter color escape `ESC[1;31m` survives, so the stored log still
contains an ANSI color escape. -/
theorem c9_multiparam_escape_survives :
    joinedStdout ["\x1b[1;31mred"] = "\x1b[1;31mred" ∧
    '\x1b' ∈ (joinedStdout ["\x1b[1;31mred"]).data := by
  exact ⟨by decide, by decide⟩

theorem ansiMatchHead_none_of_head {c : Char} (hc : c ≠ '\x1b') (rest : List Char) :
    ansiMatchHead (c :: rest) = none := by
  unfold ansiMatchHead
  match rest with
  | [] => rfl
  | c2 :: rest2 => simp [hc]

theorem stripAnsiGo_no_esc :
    ∀ (fuel : Nat) (l : List Char), l.length < fuel → escAllSimpleGo fuel l = true →
      '\x1b' ∉ stripAnsiGo fuel l := by
  intro fuel
  induction fuel with
  | zero => intro l hl _; omega
  | succ fuel ih =>
    intro l hl hesc
    match l with
    | [] => simp [stripAnsiGo, ansiMatchHead]
    | c :: rest =>
      by_cases hc : c = '\x1b'
      · subst hc
        cases hm : ansiMatchHead ('\x1b' :: rest) with
        | none =>
          exfalso
          simp [escAllSimpleGo, hm] at hesc
        | some tail =>
          have hesc2 : escAllSimpleGo fuel tail = true := by
            simpa [escAllSimpleGo, hm] using hesc
          simp only [stripAnsiGo, hm]
          have htl : tail.length < fuel := by
            have h1 := ansiMatchHead_length hm
            simp only [List.length_cons] at h1 hl
            omega
          exact ih tail htl hesc2
      · have hm := ansiMatchHead_none_of_head hc rest
        simp only [escAllSimpleGo, if_neg hc] at hesc
        simp only [stripAnsiGo, hm]
        intro hmem
        rcases List.mem_cons.mp hmem with h | h
        · exact hc h.symm
        · refine absurd h (ih rest ?_ hesc)
          simp only [List.length_cons] at hl
          omega

theorem stripAnsi_no_esc (s : String) (h : escAllSimple s.data = true) :
    '\x1b' ∉ (stripAnsi s).data := by
  exact stripAnsiGo_no_esc (s.data.length + 1) s.data (by omega) h

theorem string_data_append (a b : String) : (a ++ b).data = a.data ++ b.data := by
  cases a; cases b; rfl

/-- C9 (amended): every single-parameter color escape `ESC [ digits m` in
the raw stdout texts is removed; when all ESC characters in the raw texts
head such simple escapes, the ingested (joined, stripped) log contains no
ESC character at all.  (Multi-parameter escapes such as `ESC[1;31m` are not
removed — see the counterexample.) -/
theorem c9_simple_escapes_removed (texts : List String)
    (h : ∀ s ∈ texts, escAllSimple s.data = true) :
    '\x1b' ∉ (joinedStdout texts).data := by
  unfold joinedStdout
  have aux : ∀ (ts : List String) (acc : String), (∀ s ∈ ts, escAllSimple s.data = true) →
      '\x1b' ∉ acc.data → '\x1b' ∉ ((ts.map stripAnsi).foldl (fun a s => a ++ s) acc).data := by
    intro ts
    induction ts with
    | nil => intro acc _ hacc; exact hacc
    | cons s rest ih =>
      intro acc hall hacc
      simp only [List.map_cons, List.foldl_cons]
      refine ih (acc ++ stripAnsi s) (fun x hx => hall x (List.mem_cons_of_mem s hx)) ?_
      rw [string_data_append]
      intro hmem
      rcases List.mem_append.mp hmem with h1 | h1
      · exact hacc h1
      · exact stripAnsi_no_esc s (hall s (List.mem_cons_self s rest)) h1
  exact aux texts "" h (by simp)

/-- Witness for C9 at a concrete simple-escape log. -/
theorem c9_simple_escapes_removed_witness :
    '\x1b' ∉ (joinedStdout ["\x1b[32mok\x1b[0m", " done"]).data :=
  c9_simple_escapes_removed ["\x1b[32mok\x1b[0m", " done"] (by decide)

/-! ## Claim C4: AC coverage status -/

/-- C4: for the tests associated with an AC (the `acGroups[ac]` filter) and
its resolved minimum, the rendered badge is PASS exactly when every
associated test passed (none has a non-`passed` status) and the minimum is
met, FAIL exactly when some associated test did not pass, and BELOW MIN
exactly when every test passed but the count is under the minimum.  The
minimum is assumed ≥ 1, the invariant all sources are meant to maintain. -/
theorem c4_matrix_status (allTests : List TestRecord) (mins : List (String × Int))
    (ac : String) (hmin : 1 ≤ minOf mins ac) :
    (statusBadgeSpan (acGroup allTests ac) (minOf mins ac) =
        "<span class=\"pass-badge\">PASS</span>" ↔
      ((∀ t ∈ acGroup allTests ac, t.status = "passed") ∧
        minOf mins ac ≤ ((acGroup allTests ac).length : Int))) ∧
    (statusBadgeSpan (acGroup allTests ac) (minOf mins ac) =
        "<span class=\"fail-badge\">FAIL</span>" ↔
      (∃ t ∈ acGroup allTests ac, t.status ≠ "passed")) ∧
    (statusBadgeSpan (acGroup allTests ac) (minOf mins ac) =
        "<span class=\"skip-badge\">BELOW MIN</span>" ↔
      ((∀ t ∈ acGroup allTests ac, t.status = "passed") ∧
        ((acGroup allTests ac).length : Int) < minOf mins ac)) := by
  generalize acGroup allTests ac = tests at *
  generalize minOf mins ac = m at *
  have hfc : ((tests.filter (fun t => t.status != "passed")).length = 0) ↔
      (∀ t ∈ tests, t.status = "passed") := by
    rw [List.length_eq_zero, List.filter_eq_nil_iff]
    constructor
    · intro h t ht
      have := h t ht
      simpa [bne_iff_ne] using this
    · intro h t ht
      simp [bne_iff_ne, h t ht]
  by_cases hall : ∀ t ∈ tests, t.status = "passed"
  · have hfc0 := hfc.mpr hall
    have hnofail : ¬ ∃ t ∈ tests, t.status ≠ "passed" := by
      rintro ⟨t, ht, hne⟩
      exact hne (hall t ht)
    by_cases hm2 : m ≤ (tests.length : Int)
    · have hpos : 0 < tests.length := by
        by_contra hp
        have : tests.length = 0 := by omega
        rw [this] at hm2
        omega
      have hbadge : statusBadgeSpan tests m = "<span class=\"pass-badge\">PASS</span>" := by
        simp [statusBadgeSpan, hfc0, hm2, hpos]
      rw [hbadge]
      refine ⟨⟨fun _ => ⟨hall, hm2⟩, fun _ => rfl⟩, ⟨fun h => absurd h (by decide), ?_⟩,
        ⟨fun h => absurd h (by decide), ?_⟩⟩
      · intro h
        exact absurd h hnofail
      · rintro ⟨_, hlt⟩
        omega
    · have hbadge : statusBadgeSpan tests m = "<span class=\"skip-badge\">BELOW MIN</span>" := by
        by_cases hpos : 0 < tests.length
        · simp [statusBadgeSpan, hfc0, hm2, hpos]
        · simp [statusBadgeSpan, hfc0, hm2, hpos]
      rw [hbadge]
      refine ⟨⟨fun h => absurd h (by decide), ?_⟩, ⟨fun h => absurd h (by decide), ?_⟩,
        ⟨fun _ => ⟨hall, by omega⟩, fun _ => rfl⟩⟩
      · rintro ⟨_, hle⟩
        exact absurd hle hm2
      · intro h
        exact absurd h hnofail
  · have hfcpos : 0 < (tests.filter (fun t => t.status != "passed")).length := by
      rcases Nat.eq_zero_or_pos (tests.filter (fun t => t.status != "passed")).length with h | h
      · exact absurd (hfc.mp h) hall
      · exact h
    have hex : ∃ t ∈ tests, t.status ≠ "passed" := by
      push_neg at hall
      exact hall
    have hbadge : statusBadgeSpan tests m = "<span class=\"fail-badge\">FAIL</span>" := by
      have hne0 : (tests.filter (fun t => t.status != "passed")).length ≠ 0 :=
        Nat.pos_iff_ne_zero.mp hfcpos
      have hne : ((tests.filter (fun t => t.status != "passed")).length == 0) = false := by
        simp [hne0]
      simp [statusBadgeSpan, hne, hfcpos]
    rw [hbadge]
    refine ⟨⟨fun h => absurd h (by decide), ?_⟩, ⟨fun _ => hex, fun _ => rfl⟩,
      ⟨fun h => absurd h (by decide), ?_⟩⟩
    · rintro ⟨h, _⟩
      exact absurd h hall
    · rintro ⟨h, _⟩
      exact absurd h hall

def tPassA : TestRecord := ⟨"AC-1: first", some "AC-1", "f.spec.ts", 3, "passed", 10, "", [], "e2e"⟩
def tPassB : TestRecord := ⟨"AC-1: second", some "AC-1", "f.spec.ts", 9, "passed", 12, "", [], "api"⟩

/-- Witness for C4: minimum 3, two passing tests, zero failing — BELOW MIN. -/
theorem c4_matrix_status_witness :
    statusBadgeSpan (acGroup [tPassA, tPassB] "AC-1") (minOf [("AC-1", 3)] "AC-1") =
      "<span class=\"skip-badge\">BELOW MIN</span>" :=
  (c4_matrix_status [tPassA, tPassB] [("AC-1", 3)] "AC-1" (by decide)).2.2.mpr
    ⟨by decide, by decide⟩

/-! ## Claim C8: minimum test counts -/

def negMinConfig : String :=
  "acceptance-criteria:\n  AC-1: Login works\nminimum-tests:\n  AC-1: -5\n"

def fsNegMin : FileSys := ⟨[("/proj/teamwerk-config.yml", .file negMinConfig)]⟩

/-- C8 counterexample: a config supplying `minimum-tests: AC-1: -5` yields an
AC definition whose minimum is −5 — `parseInt(val, 10) || 1` lets any nonzero
integer through, so the claimed `≥ 1` invariant fails. -/
theorem c8_negative_minimum :
    loadACFromConfig fsNegMin "/proj/teamwerk-config.yml" =
      some ⟨[("AC-1", "Login works")], [("AC-1", -5)], none⟩ ∧
    ¬ (1 ≤ (-5 : Int)) := ⟨by decide, by decide⟩

/-- `foldl` preserves an invariant when every step (on a list element)
does. -/
theorem foldl_inv_mem {α σ : Type} (P : σ → Prop) (l : List α) (f : σ → α → σ)
    (hstep : ∀ s a, a ∈ l → P s → P (f s a)) :
    ∀ (s : σ), P s → P (l.foldl f s) := by
  induction l with
  | nil => intro s hs; exact hs
  | cons a l' ih =>
    intro s hs
    exact ih (fun s' a' ha' hp => hstep s' a' (List.mem_cons_of_mem a ha') hp) _
      (hstep s a (List.mem_cons_self a l') hs)

theorem upsertA_mem {β : Type} :
    ∀ (m : List (String × β)) (k : String) (v : β) (kv : String × β),
      kv ∈ upsertA m k v → kv ∈ m ∨ kv = (k, v) := by
  intro m k v
  induction m with
  | nil =>
    intro kv h
    simp [upsertA] at h
    exact Or.inr h
  | cons e rest ih =>
    intro kv h
    unfold upsertA at h
    split at h
    · next heq =>
      rcases List.mem_cons.mp h with h1 | h1
      · exact Or.inr (by rw [h1, heq])
      · exact Or.inl (List.mem_cons_of_mem e h1)
    · rcases List.mem_cons.mp h with h1 | h1
      · exact Or.inl (h1 ▸ List.mem_cons_self e rest)
      · rcases ih kv h1 with h2 | h2
        · exact Or.inl (List.mem_cons_of_mem e h2)
        · exact Or.inr h2

theorem jsOrOne_ne_zero (v : Option Int) : jsOrOne v ≠ 0 := by
  unfold jsOrOne
  split
  · split
    · omega
    · assumption
  · omega

/-- The `minimum-tests` section of the parsed config, as consumed by
`loadACFromConfig`. -/
def configMinEntries (fs : FileSys) (p : String) : List (String × String) :=
  match readFileSync fs p with
  | .ok content => (yvalEntries (lookupA (parseSimpleYaml content) "minimum-tests")).getD []
  | .error _ => []

/-- C8 (amended): minimums from markdown and from test-title inference are
always 1; config-sourced minimums default to 1 and are never 0, but an
explicitly configured negative integer is stored as-is, so the `≥ 1`
invariant holds except for negative configured values. -/
theorem c8_minimum_counts (fs : FileSys) (p : String) (results : Results) :
    (∀ r, loadACFromMarkdown fs p = some r → ∀ kv ∈ r.minimums, kv.2 = 1) ∧
    (∀ r, loadACFromTestResults results = some r → ∀ kv ∈ r.minimums, kv.2 = 1) ∧
    (∀ r, loadACFromConfig fs p = some r → ∀ kv ∈ r.minimums,
      1 ≤ kv.2 ∨ ∃ e ∈ configMinEntries fs p, kv.1 = e.1 ∧
        jsOrOne (parseIntJs e.2) = kv.2 ∧ kv.2 < 0) := by
  refine ⟨?_, ?_, ?_⟩
  · intro r hr kv hkv
    simp only [loadACFromMarkdown] at hr
    split at hr
    · exact absurd hr (by simp)
    · split at hr
      · exact absurd hr (by simp)
      · split at hr
        · cases hr
          refine foldl_inv_mem (fun mm => ∀ kv ∈ mm, kv.2 = 1) _ _ ?_ [] (by simp) kv hkv
          intro s a _ hp kv2 hkv2
          rcases upsertA_mem s a.1 1 kv2 hkv2 with h | h
          · exact hp kv2 h
          · rw [h]
        · exact absurd hr (by simp)
  · intro r hr kv hkv
    simp only [loadACFromTestResults] at hr
    split at hr
    · cases hr
      refine foldl_inv_mem
        (fun (acc : List (String × String) × List (String × Int)) => ∀ kv ∈ acc.2, kv.2 = 1)
        ((suitesSpecPairs results.suites).map (·.2))
        (fun acc sp =>
          match parseACAfter sp.title.data with
          | some (acId, rawDesc) =>
            if (match lookupA acc.1 acId with
                | none => true
                | some d => d.isEmpty) = true then
              (upsertA acc.1 acId (trimJs rawDesc), upsertA acc.2 acId (1 : Int))
            else acc
          | none => acc)
        ?_ ([], []) (by simp) kv hkv
      intro s a _ hp
      dsimp only
      split
      · split
        · intro kv2 hkv2
          rcases upsertA_mem s.2 _ 1 kv2 hkv2 with h | h
          · exact hp kv2 h
          · rw [h]
        · exact hp
      · exact hp
    · exact absurd hr (by simp)
  · intro r hr kv hkv
    simp only [loadACFromConfig] at hr
    split at hr
    · exact absurd hr (by simp)
    · split at hr
      · exact absurd hr (by simp)
      · next content heq =>
        split at hr
        · cases hr
          have hme : configMinEntries fs p =
              (yvalEntries (lookupA (parseSimpleYaml content) "minimum-tests")).getD [] := by
            unfold configMinEntries
            rw [heq]
          refine foldl_inv_mem
            (fun mm => ∀ kv ∈ mm, 1 ≤ kv.2 ∨ ∃ e ∈ configMinEntries fs p, kv.1 = e.1 ∧
              jsOrOne (parseIntJs e.2) = kv.2 ∧ kv.2 < 0) _ _ ?_ _ ?_ kv hkv
          · intro s a ha hp kv2 hkv2
            rcases upsertA_mem s a.1 _ kv2 hkv2 with h | h
            · exact hp kv2 h
            · rw [h]
              by_cases h1 : 1 ≤ jsOrOne (parseIntJs a.2)
              · exact Or.inl h1
              · refine Or.inr ⟨a, ?_, rfl, rfl, ?_⟩
                · rw [hme]; exact ha
                · have := jsOrOne_ne_zero (parseIntJs a.2)
                  omega
          · intro kv2 hkv2
            rcases List.mem_map.mp hkv2 with ⟨e, _, he⟩
            left
            rw [← he]
        · exact absurd hr (by simp)

/-! ## Claim C5: deduplication by (file, line, rule id)

The dedup key is the string `${file}:${line}:${id}`.  Rule ids are
colon-free and the decimal line rendering is digits-only, so the key
determines the triple; this needs the decimal rendering of `Nat` to consist
of digits and to be injective, proved below from `Nat.toDigitsCore`. -/

theorem digitChar_isDigit {m : Nat} (h : m < 10) : (Nat.digitChar m).isDigit = true := by
  interval_cases m <;> decide

theorem digitChar_decode {m : Nat} (h : m < 10) :
    (Nat.digitChar m).toNat - '0'.toNat = m := by
  interval_cases m <;> decide

theorem toDigitsCore_digits (f : Nat) :
    ∀ (n : Nat) (acc : List Char), (∀ c ∈ acc, c.isDigit = true) →
      ∀ c ∈ Nat.toDigitsCore 10 f n acc, c.isDigit = true := by
  induction f with
  | zero => intro n acc hacc c hc; exact hacc c hc
  | succ f ih =>
    intro n acc hacc c hc
    simp only [Nat.toDigitsCore] at hc
    split at hc
    · rcases List.mem_cons.mp hc with h | h
      · subst h
        exact digitChar_isDigit (Nat.mod_lt n (by decide))
      · exact hacc c h
    · refine ih (n / 10) (Nat.digitChar (n % 10) :: acc) ?_ c hc
      intro c2 hc2
      rcases List.mem_cons.mp hc2 with h | h
      · subst h
        exact digitChar_isDigit (Nat.mod_lt n (by decide))
      · exact hacc c2 h

theorem toDigitsCore_append (f : Nat) :
    ∀ (n : Nat) (acc : List Char),
      Nat.toDigitsCore 10 f n acc = Nat.toDigitsCore 10 f n [] ++ acc := by
  induction f with
  | zero => intro n acc; rfl
  | succ f ih =>
    intro n acc
    simp only [Nat.toDigitsCore]
    by_cases h : n / 10 = 0
    · simp [h]
    · rw [if_neg h, if_neg h]
      rw [ih (n / 10) (Nat.digitChar (n % 10) :: acc), ih (n / 10) [Nat.digitChar (n % 10)]]
      simp

def decodeDecimal (l : List Char) : Nat :=
  l.foldl (fun a c => a * 10 + (c.toNat - '0'.toNat)) 0

theorem decodeDecimal_append (l : List Char) (c : Char) :
    decodeDecimal (l ++ [c]) = decodeDecimal l * 10 + (c.toNat - '0'.toNat) := by
  simp [decodeDecimal, List.foldl_append]

theorem decode_toDigitsCore :
    ∀ (f n : Nat), n < 10 ^ f → decodeDecimal (Nat.toDigitsCore 10 f n []) = n := by
  intro f
  induction f with
  | zero =>
    intro n hn
    have h0 : n = 0 := by simpa using hn
    subst h0
    rfl
  | succ f ih =>
    intro n hn
    simp only [Nat.toDigitsCore]
    by_cases h : n / 10 = 0
    · rw [if_pos h]
      have hlt : n < 10 := by
        by_contra hge
        have : 1 ≤ n / 10 := Nat.le_div_iff_mul_le (by decide) |>.mpr (by omega)
        omega
      have hm : n % 10 = n := Nat.mod_eq_of_lt hlt
      show decodeDecimal [Nat.digitChar (n % 10)] = n
      rw [hm]
      have hd := digitChar_decode hlt
      simp only [decodeDecimal, List.foldl_cons, List.foldl_nil, Nat.zero_mul, Nat.zero_add]
      exact hd
    · rw [if_neg h]
      rw [toDigitsCore_append f (n / 10) [Nat.digitChar (n % 10)]]
      rw [decodeDecimal_append]
      have hdiv : n / 10 < 10 ^ f := by
        rw [Nat.div_lt_iff_lt_mul (show 0 < 10 by decide)]
        calc n < 10 ^ (f + 1) := hn
        _ = 10 ^ f * 10 := by ring
      rw [ih (n / 10) hdiv, digitChar_decode (Nat.mod_lt n (show 0 < 10 by decide))]
      omega

theorem repr_digits (n : Nat) : ∀ c ∈ (Nat.repr n).data, c.isDigit = true := by
  intro c hc
  have hrepr : (Nat.repr n).data = Nat.toDigitsCore 10 (n + 1) n [] := rfl
  rw [hrepr] at hc
  exact toDigitsCore_digits (n + 1) n [] (by simp) c hc

theorem nat_lt_ten_pow (n : Nat) : n < 10 ^ (n + 1) := by
  calc n < 2 ^ n := Nat.lt_two_pow n
  _ ≤ 10 ^ n := Nat.pow_le_pow_left (by decide) n
  _ ≤ 10 ^ (n + 1) := Nat.pow_le_pow_right (by decide) (Nat.le_succ n)

theorem repr_inj {m n : Nat} (h : Nat.repr m = Nat.repr n) : m = n := by
  have hd : Nat.toDigitsCore 10 (m + 1) m [] = Nat.toDigitsCore 10 (n + 1) n [] :=
    congrArg String.data h
  have h1 := decode_toDigitsCore (m + 1) m (nat_lt_ten_pow m)
  have h2 := decode_toDigitsCore (n + 1) n (nat_lt_ten_pow n)
  rw [← h1, ← h2, hd]

theorem string_eq_of_data {a b : String} (h : a.data = b.data) : a = b := by
  cases a; cases b; cases h; rfl

/-- Splitting at a colon is unambiguous when the left part is colon-free. -/
theorem colon_split {u1 w1 u2 w2 : List Char}
    (hu1 : ':' ∉ u1) (hu2 : ':' ∉ u2)
    (h : u1 ++ ':' :: w1 = u2 ++ ':' :: w2) : u1 = u2 ∧ w1 = w2 := by
  induction u1 generalizing u2 with
  | nil =>
    cases u2 with
    | nil => simpa using h
    | cons x u2' =>
      simp only [List.nil_append, List.cons_append, List.cons.injEq] at h
      exfalso
      apply hu2
      rw [← h.1]
      exact List.mem_cons_self ':' u2'
  | cons a u1' ih =>
    cases u2 with
    | nil =>
      simp only [List.cons_append, List.nil_append, List.cons.injEq] at h
      exfalso
      apply hu1
      rw [h.1]
      exact List.mem_cons_self ':' u1'
    | cons b u2' =>
      simp only [List.cons_append, List.cons.injEq] at h
      obtain ⟨hab, hrest⟩ := h
      have hu1' : ':' ∉ u1' := fun hm => hu1 (List.mem_cons_of_mem a hm)
      have hu2' : ':' ∉ u2' := fun hm => hu2 (List.mem_cons_of_mem b hm)
      obtain ⟨he, hw⟩ := ih hu1' hu2' hrest
      exact ⟨by rw [hab, he], hw⟩

theorem rev_triple (a b c : List Char) :
    (a ++ ':' :: (b ++ ':' :: c)).reverse =
      c.reverse ++ ':' :: (b.reverse ++ ':' :: a.reverse) := by
  simp [List.reverse_append, List.reverse_cons, List.append_assoc]

theorem three_part_split {a1 b1 c1 a2 b2 c2 : List Char}
    (hb1 : ':' ∉ b1) (hb2 : ':' ∉ b2) (hc1 : ':' ∉ c1) (hc2 : ':' ∉ c2)
    (h : a1 ++ ':' :: (b1 ++ ':' :: c1) = a2 ++ ':' :: (b2 ++ ':' :: c2)) :
    a1 = a2 ∧ b1 = b2 ∧ c1 = c2 := by
  have hrev := congrArg List.reverse h
  rw [rev_triple, rev_triple] at hrev
  have hc1' : ':' ∉ c1.reverse := by simpa using hc1
  have hc2' : ':' ∉ c2.reverse := by simpa using hc2
  obtain ⟨hcc, hrest⟩ := colon_split hc1' hc2' hrev
  have hb1' : ':' ∉ b1.reverse := by simpa using hb1
  have hb2' : ':' ∉ b2.reverse := by simpa using hb2
  obtain ⟨hbb, haa⟩ := colon_split hb1' hb2' hrest
  refine ⟨?_, ?_, ?_⟩
  · have := congrArg List.reverse haa
    simpa using this
  · have := congrArg List.reverse hbb
    simpa using this
  · have := congrArg List.reverse hcc
    simpa using this

theorem vKey_data (v : Violation) :
    (vKey v).data = v.file.data ++ ':' :: ((Nat.repr v.line).data ++ ':' :: v.id.data) := by
  show ((v.file ++ ":" ++ toString v.line ++ ":" ++ v.id)).data = _
  simp only [string_data_append]
  have hts : (toString v.line).data = (Nat.repr v.line).data := rfl
  rw [hts]
  simp [List.append_assoc]

theorem vKey_inj {v w : Violation} (hv : ':' ∉ v.id.data) (hw : ':' ∉ w.id.data)
    (h : vKey v = vKey w) : v.file = w.file ∧ v.line = w.line ∧ v.id = w.id := by
  have hd := congrArg String.data h
  rw [vKey_data, vKey_data] at hd
  have hr1 : ':' ∉ (Nat.repr v.line).data := by
    intro hm
    have := repr_digits v.line ':' hm
    exact absurd this (by decide)
  have hr2 : ':' ∉ (Nat.repr w.line).data := by
    intro hm
    have := repr_digits w.line ':' hm
    exact absurd this (by decide)
  obtain ⟨hf, hr, hid⟩ := three_part_split hr1 hr2 hv hw hd
  exact ⟨string_eq_of_data hf, repr_inj (string_eq_of_data hr), string_eq_of_data hid⟩

theorem dedupFilter_not_seen :
    ∀ (l : List Violation) (seen : List String) (w : Violation),
      w ∈ dedupFilter l seen → vKey w ∉ seen := by
  intro l
  induction l with
  | nil => intro seen w h; exact absurd h (List.not_mem_nil w)
  | cons v rest ih =>
    intro seen w h
    unfold dedupFilter at h
    split at h
    · exact ih seen w h
    · next hcont =>
      rcases List.mem_cons.mp h with h1 | h1
      · subst h1
        intro hmem
        simp_all
      · intro hmem
        exact ih _ w h1 (List.mem_cons_of_mem _ hmem)

theorem dedupFilter_pairwise :
    ∀ (l : List Violation) (seen : List String),
      (dedupFilter l seen).Pairwise (fun a b => vKey a ≠ vKey b) := by
  intro l
  induction l with
  | nil => intro seen; exact List.Pairwise.nil
  | cons v rest ih =>
    intro seen
    unfold dedupFilter
    split
    · exact ih seen
    · refine List.Pairwise.cons ?_ (ih _)
      intro w hw heq
      exact dedupFilter_not_seen rest _ w hw (heq ▸ List.mem_cons_self (vKey v) seen)

theorem dedupFilter_sublist :
    ∀ (l : List Violation) (seen : List String), List.Sublist (dedupFilter l seen) l := by
  intro l
  induction l with
  | nil => intro seen; exact List.Sublist.refl []
  | cons v rest ih =>
    intro seen
    unfold dedupFilter
    split
    · exact (ih seen).trans (List.sublist_cons_self v rest)
    · exact List.Sublist.cons₂ v (ih _)

theorem dedupFilter_mem_key :
    ∀ (l : List Violation) (seen : List String) (v : Violation),
      v ∈ l → vKey v ∉ seen → ∃ w ∈ dedupFilter l seen, vKey w = vKey v := by
  intro l
  induction l with
  | nil => intro seen v hv _; exact absurd hv (List.not_mem_nil v)
  | cons u rest ih =>
    intro seen v hv hns
    unfold dedupFilter
    split
    · next hcont =>
      rcases List.mem_cons.mp hv with rfl | hvr
      · exfalso
        apply hns
        simp_all
      · exact ih seen v hvr hns
    · rcases List.mem_cons.mp hv with rfl | hvr
      · exact ⟨v, List.mem_cons_self _ _, rfl⟩
      · by_cases hkey : vKey v = vKey u
        · exact ⟨u, List.mem_cons_self _ _, hkey.symm⟩
        · have hns2 : vKey v ∉ vKey u :: seen := by
            intro hm
            rcases List.mem_cons.mp hm with h | h
            · exact hkey h
            · exact hns h
          obtain ⟨w, hw, hkw⟩ := ih (vKey u :: seen) v hvr hns2
          exact ⟨w, List.mem_cons_of_mem u hw, hkw⟩

/-- C5: the deduplicated violation list has at most one record per
(file, line, rule id) triple, and every triple present in the input is still
represented in the output — repeated identical matches collapse to one
record while distinct rule ids at the same file and line all remain.  The
hypothesis (rule ids contain no colon, true of every catalog id) makes the
string key `${file}:${line}:${id}` faithful to the triple. -/
theorem c5_dedup (l : List Violation) (hid : ∀ v ∈ l, ':' ∉ v.id.data) :
    ((dedupViolations l).Pairwise
        (fun a b => ¬(a.file = b.file ∧ a.line = b.line ∧ a.id = b.id))) ∧
    (∀ v ∈ l, ∃ w ∈ dedupViolations l,
        w.file = v.file ∧ w.line = v.line ∧ w.id = v.id) := by
  constructor
  · refine (dedupFilter_pairwise l []).imp ?_
    rintro a b hne ⟨hf, hl, hi⟩
    exact hne (by unfold vKey; rw [hf, hl, hi])
  · intro v hv
    obtain ⟨w, hw, hkey⟩ := dedupFilter_mem_key l [] v hv (by simp)
    have hwl : w ∈ l := (dedupFilter_sublist l []).subset hw
    obtain ⟨hf, hl, hi⟩ := vKey_inj (hid w hwl) (hid v hv) hkey
    exact ⟨w, hw, hf, hl, hi⟩

def vStyle : Violation :=
  ⟨"tests/t.spec.js", 4, "DOM_STYLE_MUTATION", "critical", "d1", "r1", "ctx"⟩

def vDisplay : Violation :=
  ⟨"tests/t.spec.js", 4, "CSS_DISPLAY_OVERRIDE", "critical", "d2", "r2", "ctx"⟩

/-- Witness for C5: a duplicated record and a distinct-rule record at the
same file and line. -/
theorem c5_dedup_witness :
    ((dedupViolations [vStyle, vStyle, vDisplay]).Pairwise
        (fun a b => ¬(a.file = b.file ∧ a.line = b.line ∧ a.id = b.id))) ∧
    (∀ v ∈ [vStyle, vStyle, vDisplay], ∃ w ∈ dedupViolations [vStyle, vStyle, vDisplay],
        w.file = v.file ∧ w.line = v.line ∧ w.id = v.id) :=
  c5_dedup [vStyle, vStyle, vDisplay] (by decide)

/-! ## Claim C3: AC resolver precedence -/

theorem strAppend_left_inj (a : String) {b c : String} (h : a ++ b = a ++ c) : b = c := by
  have hd := congrArg String.data h
  rw [string_data_append, string_data_append] at hd
  exact string_eq_of_data (List.append_cancel_left hd)

/-- C3: the resolver tries, in order, the explicit config path, the
conventional `teamwerk-config.yml`, the three conventional markdown
documents, and inference from test titles; the first source yielding at
least one definition wins and no later source is consulted (read).  In
particular, when the conventional config yields definitions, no markdown
file and no test-title inference is consulted. -/
theorem c3_resolver_precedence (fs : FileSys) (root : String) (results : Results) :
    (∀ c r, loadACFromConfig fs (resolvePath root c) = some r →
      loadACDefinitions fs root (some c) results =
        (r, [ACSource.explicitConfig (resolvePath root c)])) ∧
    (∀ (cliConfig : Option String) r,
      (match cliConfig with
       | some c => loadACFromConfig fs (resolvePath root c) = none
       | none => True) →
      loadACFromConfig fs (root ++ "/teamwerk-config.yml") = some r →
      (loadACDefinitions fs root cliConfig results).1 = r ∧
      (∀ p, ACSource.markdown p ∉ (loadACDefinitions fs root cliConfig results).2) ∧
      ACSource.fromTests ∉ (loadACDefinitions fs root cliConfig results).2) ∧
    (∀ r, loadACFromConfig fs (root ++ "/teamwerk-config.yml") = none →
      loadACFromMarkdown fs (root ++ "/docs/acceptance-criteria.md") = some r →
      (loadACDefinitions fs root none results).1 = r ∧
      ACSource.markdown (root ++ "/docs/acceptance_criteria.md")
        ∉ (loadACDefinitions fs root none results).2 ∧
      ACSource.markdown (root ++ "/acceptance-criteria.md")
        ∉ (loadACDefinitions fs root none results).2 ∧
      ACSource.fromTests ∉ (loadACDefinitions fs root none results).2) ∧
    (loadACFromConfig fs (root ++ "/teamwerk-config.yml") = none →
      (∀ p ∈ MD_CANDIDATES root, loadACFromMarkdown fs p = none) →
      (loadACDefinitions fs root none results).1 =
        (loadACFromTestResults results).getD ⟨[], [], none⟩) := by
  refine ⟨?_, ?_, ?_, ?_⟩
  · intro c r hc
    simp only [loadACDefinitions, hc]
  · intro cliConfig r hex hconv
    have hres : loadACDefinitions fs root cliConfig results =
        (r, (match cliConfig with
             | some c => [ACSource.explicitConfig (resolvePath root c)]
             | none => []) ++ [ACSource.conventionalConfig (root ++ "/teamwerk-config.yml")]) := by
      cases cliConfig with
      | none => simp only [loadACDefinitions, hconv]
      | some c =>
        simp only at hex
        simp only [loadACDefinitions, hex, hconv]
    rw [hres]
    refine ⟨rfl, ?_, ?_⟩
    · intro p hp
      cases cliConfig <;> simp_all
    · cases cliConfig <;> simp_all
  · intro r hconv hmd1
    have hres : loadACDefinitions fs root none results =
        (r, [ACSource.conventionalConfig (root ++ "/teamwerk-config.yml"),
             ACSource.markdown (root ++ "/docs/acceptance-criteria.md")]) := by
      simp only [loadACDefinitions, hconv, MD_CANDIDATES, tryMarkdownList, hmd1]
      rfl
    rw [hres]
    refine ⟨rfl, ?_, ?_, ?_⟩
    · intro hm
      simp only [List.mem_cons, List.mem_singleton] at hm
      rcases hm with h | h | h
      · exact absurd h (by simp)
      · have := strAppend_left_inj root (ACSource.markdown.injEq .. |>.mp h)
        exact absurd this (by decide)
      · exact absurd h (List.not_mem_nil _)
    · intro hm
      simp only [List.mem_cons, List.mem_singleton] at hm
      rcases hm with h | h | h
      · exact absurd h (by simp)
      · have := strAppend_left_inj root (ACSource.markdown.injEq .. |>.mp h)
        exact absurd this (by decide)
      · exact absurd h (List.not_mem_nil _)
    · simp
  · intro hconv hmds
    have h1 := hmds (root ++ "/docs/acceptance-criteria.md") (by simp [MD_CANDIDATES])
    have h2 := hmds (root ++ "/docs/acceptance_criteria.md") (by simp [MD_CANDIDATES])
    have h3 := hmds (root ++ "/acceptance-criteria.md") (by simp [MD_CANDIDATES])
    cases ht : loadACFromTestResults results with
    | none =>
      simp only [loadACDefinitions, hconv, MD_CANDIDATES, tryMarkdownList, h1, h2, h3, ht]
      rfl
    | some r =>
      simp only [loadACDefinitions, hconv, MD_CANDIDATES, tryMarkdownList, h1, h2, h3, ht]
      rfl

def cfgBoth : String := "acceptance-criteria:\n  AC-1: Login works\n"

def mdOther : String := "## AC-1: Different description\n"

def fsBoth : FileSys :=
  ⟨[("/proj/teamwerk-config.yml", .file cfgBoth),
    ("/proj/docs/acceptance-criteria.md", .file mdOther)]⟩

/-- Witness for C3: config and markdown both define `AC-1` with different
descriptions; the config's definition wins and the markdown is never
consulted. -/
theorem c3_resolver_precedence_witness :
    (loadACDefinitions fsBoth "/proj" none ⟨[]⟩).1 =
      ⟨[("AC-1", "Login works")], [("AC-1", 1)], none⟩ ∧
    ACSource.markdown "/proj/docs/acceptance-criteria.md" ∉
      (loadACDefinitions fsBoth "/proj" none ⟨[]⟩).2 ∧
    ACSource.fromTests ∉ (loadACDefinitions fsBoth "/proj" none ⟨[]⟩).2 :=
  ⟨((c3_resolver_precedence fsBoth "/proj" ⟨[]⟩).2.1 none
      ⟨[("AC-1", "Login works")], [("AC-1", 1)], none⟩ trivial (by decide)).1,
   ((c3_resolver_precedence fsBoth "/proj" ⟨[]⟩).2.1 none
      ⟨[("AC-1", "Login works")], [("AC-1", 1)], none⟩ trivial (by decide)).2.1
     "/proj/docs/acceptance-criteria.md",
   ((c3_resolver_precedence fsBoth "/proj" ⟨[]⟩).2.1 none
      ⟨[("AC-1", "Login works")], [("AC-1", 1)], none⟩ trivial (by decide)).2.2⟩

/-- Witness for C8 at the negative-minimum config. -/
theorem c8_minimum_counts_witness :
    1 ≤ (("AC-1", (-5 : Int)) : String × Int).2 ∨
    ∃ e ∈ configMinEntries fsNegMin "/proj/teamwerk-config.yml",
      (("AC-1", (-5 : Int)) : String × Int).1 = e.1 ∧
      jsOrOne (parseIntJs e.2) = (("AC-1", (-5 : Int)) : String × Int).2 ∧
      (("AC-1", (-5 : Int)) : String × Int).2 < 0 :=
  (c8_minimum_counts fsNegMin "/proj/teamwerk-config.yml" ⟨[]⟩).2.2
    ⟨[("AC-1", "Login works")], [("AC-1", -5)], none⟩ (by decide)
    ("AC-1", -5) (by decide)

end Teamwerk
